import Mathlib

/-!
Verification development for MilkWidgetCore: a shallow embedding of the
style model (StyleSheet, merge), the color/value grammar (Color::parse,
the free parseColor helper, the formatters, the border/shadow shorthand
parsers), the markup-to-tree builder's root dispatch and structural-error
handling, the named-animation replacement protocol, and the opacity
clamp.  Qt string operations (trimmed, toLower, split, toInt, toDouble,
remove, mid) are modelled over `List Char`.
-/

set_option maxRecDepth 10000

namespace Milk

/-- Qt strings are modelled as lists of characters. -/
abbrev QStr := List Char

/-- Shorthand turning a Lean string literal into the QStr model. -/
def qs (s : String) : QStr := s.toList

/-- Model of QChar::isSpace for the ASCII whitespace characters. -/
def isQSpace (c : Char) : Bool :=
  c = ' ' || c = '\t' || c = '\n' || c = '\r' || c = '\x0b' || c = '\x0c'

/-- Model of QString::trimmed: strip leading and trailing whitespace. -/
def trimL (l : QStr) : QStr :=
  ((l.dropWhile isQSpace).reverse.dropWhile isQSpace).reverse

/-- Model of QString::toLower (ASCII case folding suffices for the grammar). -/
def lowerL (l : QStr) : QStr := l.map Char.toLower

/-- Whether the string starts with the given literal, as QString::startsWith. -/
def startsWithL (l p : QStr) : Bool := decide (l.take p.length = p)

/-- Whether the string ends with the given literal, as QString::endsWith. -/
def endsWithL (l p : QStr) : Bool := startsWithL l.reverse p.reverse

/-- Model of QString::split on a separator character, keeping empty parts. -/
def splitCh (c : Char) : QStr → List QStr
  | [] => [[]]
  | x :: xs =>
    if x = c then [] :: splitCh c xs
    else
      match splitCh c xs with
      | [] => [[x]]
      | s :: ss => (x :: s) :: ss

/-- Model of QString::split with Qt::SkipEmptyParts. -/
def splitSkipEmpty (c : Char) (l : QStr) : List QStr :=
  (splitCh c l).filter (fun s => s ≠ [])

/-- Model of QString::mid(pos, n); a negative n takes the whole tail. -/
def qmid (l : QStr) (pos : ℕ) (n : ℤ) : QStr :=
  if n < 0 then l.drop pos else (l.drop pos).take n.toNat

/-- Fuelled worker for QString::remove(sub); the fuel (at least the
string length plus one) only forces structural recursion and is never
exhausted on the lengths it is called with. -/
def removeAllAux : ℕ → QStr → QStr → QStr
  | 0, _, l => l
  | fuel + 1, pat, l =>
    match l with
    | [] => []
    | c :: rest =>
      if pat ≠ [] ∧ startsWithL (c :: rest) pat then
        removeAllAux fuel pat ((c :: rest).drop pat.length)
      else
        c :: removeAllAux fuel pat rest

/-- Model of QString::remove(sub): delete every occurrence of a substring,
scanning left to right without rescanning the produced text. -/
def removeAllL (pat l : QStr) : QStr := removeAllAux (l.length + 1) pat l

/-- Numeric value of a digit string (most significant digit first). -/
def digitsVal (l : QStr) : ℕ :=
  l.foldl (fun a c => 10 * a + (c.toNat - 48)) 0

/-- Model of QString::toInt with its ok-flag: trims whitespace, accepts an
optional sign followed by decimal digits, and rejects anything else. -/
def qtToIntOk (l : QStr) : Option ℤ :=
  match trimL l with
  | [] => none
  | c :: ds =>
    if c = '+' then
      if ds ≠ [] ∧ ds.all Char.isDigit then some (digitsVal ds) else none
    else if c = '-' then
      if ds ≠ [] ∧ ds.all Char.isDigit then some (-(digitsVal ds : ℤ)) else none
    else if (c :: ds).all Char.isDigit then some (digitsVal (c :: ds))
    else none

/-- Model of QString::toInt without the ok-flag: failures yield 0. -/
def qtToInt (l : QStr) : ℤ := (qtToIntOk l).getD 0

/-- Value of a decimal fraction part, in [0, 1) (built with Rat.divInt
so that it evaluates inside the kernel). -/
def fracVal (l : QStr) : ℚ :=
  Rat.divInt (digitsVal l) (((10 : ℕ) ^ l.length : ℕ) : ℤ)

/-- Model of QString::toDouble (doubles are modelled as rationals built
with Rat.divInt, so that they evaluate inside the kernel): trims,
accepts optional sign, digits, an optional decimal point with digits. -/
def qtToDoubleOk (l : QStr) : Option ℚ :=
  let body : QStr → Option ℚ := fun t =>
    match splitCh '.' t with
    | [ds] => if ds ≠ [] ∧ ds.all Char.isDigit then some (digitsVal ds) else none
    | [ip, fp] =>
      if (ip ++ fp) ≠ [] ∧ ip.all Char.isDigit ∧ fp.all Char.isDigit then
        some (Rat.divInt
          (digitsVal ip * ((10 : ℕ) ^ fp.length : ℕ) + digitsVal fp)
          (((10 : ℕ) ^ fp.length : ℕ) : ℤ))
      else none
    | _ => none
  match trimL l with
  | [] => none
  | c :: t =>
    if c = '+' then body t
    else if c = '-' then (body t).map Neg.neg
    else body (c :: t)

/-- Model of QString::toDouble without the ok-flag: failures yield 0. -/
def qtToDouble (l : QStr) : ℚ := (qtToDoubleOk l).getD 0

/-- The value static_cast<int>(q * 255): multiplying by 255 and
truncating toward zero needs no normalisation, so it is computed on the
raw numerator/denominator (T-division is truncation toward zero). -/
def ratScale255Trunc (q : ℚ) : ℤ := (q.num * 255).tdiv (q.den : ℤ)

/-- Decimal digit character for a value below ten. -/
def digitChar (n : ℕ) : Char := Char.ofNat (48 + n)

/-- Fuelled worker for the decimal rendering (the fuel, at least the
value plus one, only forces structural recursion). -/
def natToCharsAux : ℕ → ℕ → QStr → QStr
  | 0, _, acc => acc
  | fuel + 1, n, acc =>
    if n < 10 then digitChar n :: acc
    else natToCharsAux fuel (n / 10) (digitChar (n % 10) :: acc)

/-- Decimal rendering of a natural number, as QString::arg(int) for
non-negative values. -/
def natToChars (n : ℕ) : QStr := natToCharsAux (n + 1) n []

/-- Decimal rendering of an integer, with a leading minus when negative. -/
def intToChars (n : ℤ) : QStr :=
  if n < 0 then '-' :: natToChars (-n).toNat else natToChars n.toNat

/-- Lowercase hexadecimal digit character for a value below sixteen. -/
def hexDigitChar (n : ℕ) : Char :=
  if n < 10 then Char.ofNat (48 + n) else Char.ofNat (97 + (n - 10))

/-- Two lowercase hex digits for a byte value. -/
def byteHex (n : ℕ) : QStr := [hexDigitChar (n / 16), hexDigitChar (n % 16)]

/-- Hexadecimal value of one digit character, upper or lower case. -/
def hexVal (c : Char) : Option ℕ :=
  if '0' ≤ c ∧ c ≤ '9' then some (c.toNat - 48)
  else if 'a' ≤ c ∧ c ≤ 'f' then some (c.toNat - 87)
  else if 'A' ≤ c ∧ c ≤ 'F' then some (c.toNat - 55)
  else none

/-- Hexadecimal value of a digit string, failing on any non-hex character. -/
def hexValL : QStr → Option ℕ
  | [] => some 0
  | c :: rest => do
    let d ← hexVal c
    let r ← hexValL rest
    pure (d * 16 ^ rest.length + r)

/-- Round a rational to the nearest integer (used by the colour-space
conversions modelled from Qt's internals). -/
def ratRound (q : ℚ) : ℤ := ⌊q + 1 / 2⌋

/-- Model of QColor.  Qt stores the colour in the spec it was created
with (Rgb for the int constructor and hex/named strings, Hsl after
setHsl), plus an invalid state for out-of-range input. -/
inductive QColor where
  | invalid
  | rgb (r g b a : ℕ)
  | hsl (h : ℤ) (s l a : ℕ)
deriving DecidableEq, Repr

/-- Model of QColor::isValid. -/
def QColor.isValid : QColor → Bool
  | .invalid => false
  | _ => true

/-- Model of the QColor(r, g, b, a) constructor: out-of-range components
produce an invalid colour (Qt warns and leaves the colour invalid). -/
def QColor.mkRgb (r g b a : ℤ) : QColor :=
  if 0 ≤ r ∧ r ≤ 255 ∧ 0 ≤ g ∧ g ≤ 255 ∧ 0 ≤ b ∧ b ≤ 255 ∧ 0 ≤ a ∧ a ≤ 255 then
    .rgb r.toNat g.toNat b.toNat a.toNat
  else .invalid

/-- Model of QColor::setHsl on a fresh colour: hue in 0..359 (or -1 for
achromatic), saturation/lightness/alpha in 0..255, else invalid. -/
def QColor.mkHsl (h s l a : ℤ) : QColor :=
  if (h = -1 ∨ (0 ≤ h ∧ h ≤ 359)) ∧ 0 ≤ s ∧ s ≤ 255 ∧ 0 ≤ l ∧ l ≤ 255 ∧
      0 ≤ a ∧ a ≤ 255 then
    .hsl h s.toNat l.toNat a.toNat
  else .invalid

/-- HSL to RGB conversion, modelled from Qt's internal colour-space
conversion (an external-library detail; no claim below depends on it). -/
def hslToRgbChannels (h : ℤ) (s l : ℕ) : ℕ × ℕ × ℕ :=
  let hh : ℤ := if h = -1 then 0 else h
  let S : ℚ := (s : ℚ) / 255
  let L : ℚ := (l : ℚ) / 255
  let C : ℚ := (1 - |2 * L - 1|) * S
  let sector : ℤ := hh / 60
  let f : ℚ := (hh : ℚ) / 60 - (sector : ℚ)
  let X : ℚ := C * (1 - |((sector % 2 : ℤ) : ℚ) + f - 1|)
  let m : ℚ := L - C / 2
  let triple : ℚ × ℚ × ℚ :=
    if sector = 0 then (C, X, 0)
    else if sector = 1 then (X, C, 0)
    else if sector = 2 then (0, C, X)
    else if sector = 3 then (0, X, C)
    else if sector = 4 then (X, 0, C)
    else (C, 0, X)
  ((ratRound ((triple.1 + m) * 255)).toNat,
   (ratRound ((triple.2.1 + m) * 255)).toNat,
   (ratRound ((triple.2.2 + m) * 255)).toNat)

/-- RGB to HSL conversion, modelled from Qt's internal colour-space
conversion (an external-library detail; no claim below depends on it). -/
def rgbToHslChannels (r g b : ℕ) : ℤ × ℕ × ℕ :=
  let M : ℕ := max r (max g b)
  let m : ℕ := min r (min g b)
  let L2 : ℕ := M + m
  if M = m then (-1, 0, (ratRound ((L2 : ℚ) / 2)).toNat)
  else
    let d : ℚ := ((M : ℚ) - m)
    let hq : ℚ :=
      if M = r then 60 * (((g : ℚ) - b) / d)
      else if M = g then 60 * (2 + ((b : ℚ) - r) / d)
      else 60 * (4 + ((r : ℚ) - g) / d)
    let hq' : ℚ := if hq < 0 then hq + 360 else hq
    let S : ℚ := d / (255 - |(L2 : ℚ) - 255|)
    ((ratRound hq') % 360, (ratRound (S * 255)).toNat,
     (ratRound ((L2 : ℚ) / 2)).toNat)

/-- Red channel of a colour (hsl colours convert; invalid reads as 0). -/
def QColor.red : QColor → ℕ
  | .invalid => 0
  | .rgb r _ _ _ => r
  | .hsl h s l _ => (hslToRgbChannels h s l).1

/-- Green channel of a colour. -/
def QColor.green : QColor → ℕ
  | .invalid => 0
  | .rgb _ g _ _ => g
  | .hsl h s l _ => (hslToRgbChannels h s l).2.1

/-- Blue channel of a colour. -/
def QColor.blue : QColor → ℕ
  | .invalid => 0
  | .rgb _ _ b _ => b
  | .hsl h s l _ => (hslToRgbChannels h s l).2.2

/-- Alpha channel of a colour. -/
def QColor.alpha : QColor → ℕ
  | .invalid => 255
  | .rgb _ _ _ a => a
  | .hsl _ _ _ a => a

/-- Hue as returned by QColor::getHsl (stored for hsl colours). -/
def QColor.hslHue : QColor → ℤ
  | .invalid => -1
  | .rgb r g b _ => (rgbToHslChannels r g b).1
  | .hsl h _ _ _ => h

/-- Saturation as returned by QColor::getHsl. -/
def QColor.hslSat : QColor → ℕ
  | .invalid => 0
  | .rgb r g b _ => (rgbToHslChannels r g b).2.1
  | .hsl _ s _ _ => s

/-- Lightness as returned by QColor::getHsl. -/
def QColor.hslLight : QColor → ℕ
  | .invalid => 0
  | .rgb r g b _ => (rgbToHslChannels r g b).2.2
  | .hsl _ _ l _ => l

/-- The fragment of Qt's SVG named-colour table exercised by this
development (the full table is larger; it is an external-library
constant).  Note SVG "green" is #008000, not #00ff00. -/
def svgTable : List (QStr × QColor) :=
  [ (qs "transparent", .rgb 0 0 0 0)
  , (qs "white", .rgb 255 255 255 255)
  , (qs "black", .rgb 0 0 0 255)
  , (qs "red", .rgb 255 0 0 255)
  , (qs "green", .rgb 0 128 0 255)
  , (qs "lime", .rgb 0 255 0 255)
  , (qs "blue", .rgb 0 0 255 255)
  , (qs "yellow", .rgb 255 255 0 255)
  , (qs "cyan", .rgb 0 255 255 255)
  , (qs "magenta", .rgb 255 0 255 255)
  , (qs "orange", .rgb 255 165 0 255)
  , (qs "purple", .rgb 128 0 128 255)
  , (qs "pink", .rgb 255 192 203 255)
  , (qs "gray", .rgb 128 128 128 255)
  , (qs "grey", .rgb 128 128 128 255) ]

/-- Model of the QColor(QString) constructor / setNamedColor: a leading
hash parses as a hex literal (#RGB, #RRGGBB, or Qt's #AARRGGBB), other
strings are looked up case-insensitively in the SVG named-colour table. -/
def qcolorFromString (str : QStr) : QColor :=
  match str with
  | '#' :: rest =>
    match rest with
    | [d1, d2, d3] =>
      match hexVal d1, hexVal d2, hexVal d3 with
      | some r, some g, some b => .rgb (17 * r) (17 * g) (17 * b) 255
      | _, _, _ => .invalid
    | [r1, r2, g1, g2, b1, b2] =>
      match hexValL [r1, r2], hexValL [g1, g2], hexValL [b1, b2] with
      | some r, some g, some b => .rgb r g b 255
      | _, _, _ => .invalid
    | [a1, a2, r1, r2, g1, g2, b1, b2] =>
      match hexValL [a1, a2], hexValL [r1, r2], hexValL [g1, g2],
          hexValL [b1, b2] with
      | some a, some r, some g, some b => .rgb r g b a
      | _, _, _, _ => .invalid
    | _ => .invalid
  | _ =>
    match (svgTable.filter (fun p => p.1 = lowerL str)) with
    | [] => .invalid
    | p :: _ => p.2

namespace Color

/-- Predefined colour Milk::Color::Transparent (Qt::transparent). -/
def Transparent : QColor := .rgb 0 0 0 0

/-- Predefined colour Milk::Color::White (Qt::white). -/
def White : QColor := .rgb 255 255 255 255

/-- Predefined colour Milk::Color::Black (Qt::black). -/
def Black : QColor := .rgb 0 0 0 255

/-- Predefined colour Milk::Color::Red. -/
def Red : QColor := .rgb 255 0 0 255

/-- Predefined colour Milk::Color::Green (note: QColor(0,255,0)). -/
def Green : QColor := .rgb 0 255 0 255

/-- Predefined colour Milk::Color::Blue. -/
def Blue : QColor := .rgb 0 0 255 255

/-- Predefined colour Milk::Color::Yellow. -/
def Yellow : QColor := .rgb 255 255 0 255

/-- Predefined colour Milk::Color::Cyan. -/
def Cyan : QColor := .rgb 0 255 255 255

/-- Predefined colour Milk::Color::Magenta. -/
def Magenta : QColor := .rgb 255 0 255 255

/-- Predefined colour Milk::Color::Orange. -/
def Orange : QColor := .rgb 255 165 0 255

/-- Predefined colour Milk::Color::Purple. -/
def Purple : QColor := .rgb 128 0 128 255

/-- Predefined colour Milk::Color::Pink. -/
def Pink : QColor := .rgb 255 192 203 255

/-- Predefined colour Milk::Color::Gray. -/
def Gray : QColor := .rgb 128 128 128 255

/-- The rgb( branch of Color::parse: early return when at least three
comma-separated components are present, otherwise fall through. -/
def rgbBranch (s : QStr) : Option QColor :=
  if startsWithL s (qs "rgb(") then
    let inner := qmid s 4 ((s.length : ℤ) - 5)
    let parts := splitCh ',' inner
    if 3 ≤ parts.length then
      some (QColor.mkRgb (qtToInt (trimL (parts.getD 0 [])))
        (qtToInt (trimL (parts.getD 1 [])))
        (qtToInt (trimL (parts.getD 2 []))) 255)
    else none
  else none

/-- The rgba( branch of Color::parse, with the decimal-point alpha
heuristic: an alpha token containing a point is read as a 0.0-1.0
fraction scaled by 255 (truncated), otherwise as a 0-255 integer. -/
def rgbaBranch (s : QStr) : Option QColor :=
  if startsWithL s (qs "rgba(") then
    let inner := qmid s 5 ((s.length : ℤ) - 6)
    let parts := splitCh ',' inner
    if 4 ≤ parts.length then
      let alphaStr := trimL (parts.getD 3 [])
      let alpha : ℤ :=
        if alphaStr.contains '.' then ratScale255Trunc (qtToDouble alphaStr)
        else qtToInt alphaStr
      some (QColor.mkRgb (qtToInt (trimL (parts.getD 0 [])))
        (qtToInt (trimL (parts.getD 1 [])))
        (qtToInt (trimL (parts.getD 2 []))) alpha)
    else none
  else none

/-- The hsl( branch of Color::parse: hue, then percent saturation and
lightness scaled by 255/100 in integer arithmetic, via setHsl. -/
def hslBranch (s : QStr) : Option QColor :=
  if startsWithL s (qs "hsl(") then
    let inner := qmid s 4 ((s.length : ℤ) - 5)
    let parts := splitCh ',' inner
    if 3 ≤ parts.length then
      let h := qtToInt (trimL (parts.getD 0 []))
      let sat := qtToInt (removeAllL (qs "%") (trimL (parts.getD 1 [])))
      let light := qtToInt (removeAllL (qs "%") (trimL (parts.getD 2 [])))
      some (QColor.mkHsl h (Int.tdiv (sat * 255) 100)
        (Int.tdiv (light * 255) 100) 255)
    else none
  else none

/-- The named-colour chain of Color::parse (a fixed case-insensitive
table checked before the hex fallback). -/
def namedBranch (s : QStr) : Option QColor :=
  if s = qs "transparent" then some Transparent
  else if s = qs "white" then some White
  else if s = qs "black" then some Black
  else if s = qs "red" then some Red
  else if s = qs "green" then some Green
  else if s = qs "blue" then some Blue
  else if s = qs "yellow" then some Yellow
  else if s = qs "cyan" then some Cyan
  else if s = qs "magenta" then some Magenta
  else if s = qs "orange" then some Orange
  else if s = qs "purple" then some Purple
  else if s = qs "pink" then some Pink
  else if s = qs "gray" ∨ s = qs "grey" then some Gray
  else none

/-- Model of Milk::Color::parse (Utils implementation): lowercases and
trims, tries rgb/rgba/hsl/named in order, and hands anything else to the
QColor(QString) hex parser applied to the original string. -/
def parse (str : QStr) : QColor :=
  let s := lowerL (trimL str)
  match rgbBranch s with
  | some c => c
  | none =>
    match rgbaBranch s with
    | some c => c
    | none =>
      match hslBranch s with
      | some c => c
      | none =>
        match namedBranch s with
        | some c => c
        | none => qcolorFromString str

/-- Model of QColor::name(): "#rrggbb" in lowercase hex, alpha ignored. -/
def qcolorName (c : QColor) : QStr :=
  '#' :: (byteHex c.red ++ byteHex c.green ++ byteHex c.blue)

/-- Model of Milk::Color::toHex: with includeAlpha and a translucent
colour the manual "#rrggbbaa" format, otherwise QColor::name(). -/
def toHex (c : QColor) (includeAlpha : Bool) : QStr :=
  if includeAlpha ∧ c.alpha < 255 then
    '#' :: (byteHex c.red ++ byteHex c.green ++ byteHex c.blue ++
      byteHex c.alpha)
  else qcolorName c

/-- Model of Milk::Color::toRgb: "rgb(r, g, b)". -/
def toRgb (c : QColor) : QStr :=
  qs "rgb(" ++ natToChars c.red ++ qs ", " ++ natToChars c.green ++
    qs ", " ++ natToChars c.blue ++ qs ")"

/-- Model of Milk::Color::toRgba: "rgba(r, g, b, a)" with integer alpha. -/
def toRgba (c : QColor) : QStr :=
  qs "rgba(" ++ natToChars c.red ++ qs ", " ++ natToChars c.green ++
    qs ", " ++ natToChars c.blue ++ qs ", " ++ natToChars c.alpha ++ qs ")"

/-- Model of Milk::Color::toHsl: "hsl(h, s%, l%)" with the stored
saturation/lightness scaled by 100/255 in integer arithmetic. -/
def toHsl (c : QColor) : QStr :=
  qs "hsl(" ++ intToChars c.hslHue ++ qs ", " ++
    natToChars (c.hslSat * 100 / 255) ++ qs "%, " ++
    natToChars (c.hslLight * 100 / 255) ++ qs "%)"

end Color

/-- Model of the free helper Milk::parseColor from the types header: an
if/else-if chain on the raw string (no trimming, no lowercasing), with
rgba alpha always read by toInt (no decimal-point heuristic), falling
back to the QColor(QString) constructor. -/
def parseColor (str : QStr) : QColor :=
  if startsWithL str (qs "rgb(") then
    let inner := qmid str 4 ((str.length : ℤ) - 5)
    let parts := splitCh ',' inner
    if 3 ≤ parts.length then
      QColor.mkRgb (qtToInt (trimL (parts.getD 0 [])))
        (qtToInt (trimL (parts.getD 1 [])))
        (qtToInt (trimL (parts.getD 2 []))) 255
    else qcolorFromString str
  else if startsWithL str (qs "rgba(") then
    let inner := qmid str 5 ((str.length : ℤ) - 6)
    let parts := splitCh ',' inner
    if 4 ≤ parts.length then
      QColor.mkRgb (qtToInt (trimL (parts.getD 0 [])))
        (qtToInt (trimL (parts.getD 1 [])))
        (qtToInt (trimL (parts.getD 2 [])))
        (qtToInt (trimL (parts.getD 3 [])))
    else qcolorFromString str
  else qcolorFromString str

/-- Blur modes from the types header. -/
inductive BlurMode where
  | None
  | Background
  | Glass
  | Frosted
deriving DecidableEq, Repr

/-- Border line styles from the types header. -/
inductive BorderStyle where
  | None
  | Solid
  | Dashed
  | Dotted
  | Gradient
deriving DecidableEq, Repr

/-- Margin record (Padding inherits this in the source). -/
structure Margin where
  top : ℤ := 0
  right : ℤ := 0
  bottom : ℤ := 0
  left : ℤ := 0
deriving DecidableEq, Repr

/-- The Margin(all) constructor. -/
def Margin.all (v : ℤ) : Margin := ⟨v, v, v, v⟩

/-- The Margin(v, h) constructor. -/
def Margin.vh (v h : ℤ) : Margin := ⟨v, h, v, h⟩

/-- Shadow record with its member initialisers. -/
structure Shadow where
  color : QColor := .rgb 0 0 0 80
  blur : ℤ := 10
  offsetX : ℤ := 0
  offsetY : ℤ := 2
  spread : ℤ := 0
  enabled : Bool := false
deriving DecidableEq, Repr

/-- Gradient kinds. -/
inductive GradientType where
  | Linear
  | Radial
  | Conical
deriving DecidableEq, Repr

/-- Gradient record with its member initialisers. -/
structure Gradient where
  type : GradientType := .Linear
  start : QColor := .invalid
  stop : QColor := .invalid
  angle : ℚ := 0
  center : ℚ × ℚ := (0, 0)
deriving DecidableEq, Repr

/-- Gradient::isValid: both endpoint colours valid. -/
def Gradient.isValid (g : Gradient) : Bool :=
  g.start.isValid && g.stop.isValid

/-- Border record with its member initialisers (colour Qt::transparent). -/
structure Border where
  color : QColor := .rgb 0 0 0 0
  width : ℤ := 0
  radius : ℤ := 0
  style : BorderStyle := .Solid
deriving DecidableEq, Repr

/-- Border::isVisible. -/
def Border.isVisible (b : Border) : Bool :=
  b.width > 0 && b.color.alpha > 0

/-- StyleSheet record with its member initialisers (note fontSize = 12). -/
structure StyleSheet where
  backgroundColor : QColor := .invalid
  backgroundGradient : Gradient := {}
  backgroundImage : QStr := []
  textColor : QColor := .invalid
  fontFamily : QStr := []
  fontSize : ℤ := 12
  fontBold : Bool := false
  fontItalic : Bool := false
  border : Border := {}
  shadow : Shadow := {}
  margin : Margin := {}
  padding : Margin := {}
  cornerRadius : ℤ := 0
  opacity : ℚ := 1
  blur : BlurMode := .None
  blurRadius : ℚ := 10
deriving DecidableEq, Repr

/-- A freshly constructed (default-initialised) StyleSheet. -/
def StyleSheet.fresh : StyleSheet := {}

namespace CSSParser

/-- Model of CSSParser::merge.  The source copies `a` into the result and
then overwrites one field per guarded assignment; since each assignment
touches its own field(s) this is written field-by-field here, with the
blur guard carrying blurRadius along exactly as in the source. -/
def merge (a b : StyleSheet) : StyleSheet where
  backgroundColor :=
    if b.backgroundColor.isValid then b.backgroundColor else a.backgroundColor
  backgroundGradient :=
    if b.backgroundGradient.isValid then b.backgroundGradient
    else a.backgroundGradient
  backgroundImage :=
    if b.backgroundImage ≠ [] then b.backgroundImage else a.backgroundImage
  textColor := if b.textColor.isValid then b.textColor else a.textColor
  fontFamily := if b.fontFamily ≠ [] then b.fontFamily else a.fontFamily
  fontSize := if b.fontSize > 0 then b.fontSize else a.fontSize
  fontBold := if b.fontBold then b.fontBold else a.fontBold
  fontItalic := if b.fontItalic then b.fontItalic else a.fontItalic
  border := if b.border.width > 0 then b.border else a.border
  shadow := if b.shadow.enabled then b.shadow else a.shadow
  margin :=
    if b.margin.top > 0 ∨ b.margin.right > 0 ∨ b.margin.bottom > 0 ∨
        b.margin.left > 0 then b.margin else a.margin
  padding :=
    if b.padding.top > 0 ∨ b.padding.right > 0 ∨ b.padding.bottom > 0 ∨
        b.padding.left > 0 then b.padding else a.padding
  cornerRadius := if b.cornerRadius > 0 then b.cornerRadius else a.cornerRadius
  opacity := if b.opacity < 1 then b.opacity else a.opacity
  blur := if b.blur ≠ .None then b.blur else a.blur
  blurRadius := if b.blur ≠ .None then b.blurRadius else a.blurRadius

end CSSParser

/-- The independently-optional fields of a StyleSheet (blur mode and blur
radius travel together, as in §3 of the specification). -/
inductive Field where
  | backgroundColor
  | backgroundGradient
  | backgroundImage
  | textColor
  | fontFamily
  | fontSize
  | fontBold
  | fontItalic
  | border
  | shadow
  | margin
  | padding
  | cornerRadius
  | opacity
  | blur
deriving DecidableEq, Repr

/-- Whether a field is in its "set" state, per the per-field sentinels of
§3: valid colour, non-empty string, positive size, enabled flag, opacity
below 1.0, blur mode other than None. -/
def fieldIsSet (f : Field) (s : StyleSheet) : Bool :=
  match f with
  | .backgroundColor => s.backgroundColor.isValid
  | .backgroundGradient => s.backgroundGradient.isValid
  | .backgroundImage => s.backgroundImage ≠ []
  | .textColor => s.textColor.isValid
  | .fontFamily => s.fontFamily ≠ []
  | .fontSize => s.fontSize > 0
  | .fontBold => s.fontBold
  | .fontItalic => s.fontItalic
  | .border => s.border.width > 0
  | .shadow => s.shadow.enabled
  | .margin =>
    s.margin.top > 0 ∨ s.margin.right > 0 ∨ s.margin.bottom > 0 ∨
      s.margin.left > 0
  | .padding =>
    s.padding.top > 0 ∨ s.padding.right > 0 ∨ s.padding.bottom > 0 ∨
      s.padding.left > 0
  | .cornerRadius => s.cornerRadius > 0
  | .opacity => s.opacity < 1
  | .blur => s.blur ≠ .None

/-- Whether two StyleSheets agree on a given field. -/
def fieldEqOn (f : Field) (s t : StyleSheet) : Bool :=
  match f with
  | .backgroundColor => s.backgroundColor = t.backgroundColor
  | .backgroundGradient => s.backgroundGradient = t.backgroundGradient
  | .backgroundImage => s.backgroundImage = t.backgroundImage
  | .textColor => s.textColor = t.textColor
  | .fontFamily => s.fontFamily = t.fontFamily
  | .fontSize => s.fontSize = t.fontSize
  | .fontBold => s.fontBold = t.fontBold
  | .fontItalic => s.fontItalic = t.fontItalic
  | .border => s.border = t.border
  | .shadow => s.shadow = t.shadow
  | .margin => s.margin = t.margin
  | .padding => s.padding = t.padding
  | .cornerRadius => s.cornerRadius = t.cornerRadius
  | .opacity => s.opacity = t.opacity
  | .blur => s.blur = t.blur ∧ s.blurRadius = t.blurRadius

namespace CSSParser

/-- Model of CSSParser::parsePixels: trim, lowercase, strip the unit
suffixes px/pt/em/rem (every occurrence, in that order), then toInt. -/
def parsePixels (value : QStr) : ℤ :=
  qtToInt (removeAllL (qs "rem") (removeAllL (qs "em") (removeAllL (qs "pt")
    (removeAllL (qs "px") (lowerL (trimL value))))))

/-- Model of CSSParser::parseMargin: CSS-like positional shorthand. -/
def parseMargin (value : QStr) : Margin :=
  let parts := splitSkipEmpty ' ' value
  if parts.length = 1 then
    Margin.all (parsePixels (parts.getD 0 []))
  else if parts.length = 2 then
    Margin.vh (parsePixels (parts.getD 0 [])) (parsePixels (parts.getD 1 []))
  else if parts.length = 3 then
    { top := parsePixels (parts.getD 0 [])
      right := parsePixels (parts.getD 1 [])
      left := parsePixels (parts.getD 1 [])
      bottom := parsePixels (parts.getD 2 []) }
  else if 4 ≤ parts.length then
    { top := parsePixels (parts.getD 0 [])
      right := parsePixels (parts.getD 1 [])
      bottom := parsePixels (parts.getD 2 [])
      left := parsePixels (parts.getD 3 []) }
  else {}

/-- One loop iteration of CSSParser::parseBorder: width when the token
ends in px or begins with a digit, style on a known keyword, otherwise
the token is taken as a colour (overwriting any earlier colour). -/
def borderStep (b : Border) (part : QStr) : Border :=
  let p := trimL part
  if endsWithL p (qs "px") || (p.headD (Char.ofNat 0)).isDigit then
    { b with width := parsePixels p }
  else if p = qs "solid" ∨ p = qs "dashed" ∨ p = qs "dotted" ∨
      p = qs "none" then
    { b with style :=
        if p = qs "solid" then .Solid
        else if p = qs "dashed" then .Dashed
        else if p = qs "dotted" then .Dotted
        else .None }
  else
    { b with color := Color.parse p }

/-- Model of CSSParser::parseBorder. -/
def parseBorder (value : QStr) : Border :=
  (splitSkipEmpty ' ' value).foldl borderStep {}

/-- One loop iteration of CSSParser::parseShadow: a token whose text
minus "px" parses as an integer is collected as a number, any other
token overwrites the pending colour string. -/
def shadowStep (acc : List ℤ × QStr) (part : QStr) : List ℤ × QStr :=
  let p := trimL part
  let numPart := removeAllL (qs "px") p
  match qtToIntOk numPart with
  | some n => (acc.1 ++ [n], acc.2)
  | none => (acc.1, p)

/-- Model of CSSParser::parseShadow: enabled, numbers assigned
positionally as offsetX/offsetY/blur/spread, the last non-numeric token
(if non-empty) parsed as the colour. -/
def parseShadow (value : QStr) : Shadow :=
  let parts := splitSkipEmpty ' ' value
  let nc := parts.foldl shadowStep ([], [])
  let numbers := nc.1
  let colorStr := nc.2
  let s0 : Shadow := { enabled := true }
  let s1 :=
    if 2 ≤ numbers.length then
      { s0 with offsetX := numbers.getD 0 0, offsetY := numbers.getD 1 0 }
    else s0
  let s2 := if 3 ≤ numbers.length then { s1 with blur := numbers.getD 2 0 } else s1
  let s3 := if 4 ≤ numbers.length then { s2 with spread := numbers.getD 3 0 } else s2
  if colorStr ≠ [] then { s3 with color := Color.parse colorStr } else s3

end CSSParser

/-- Shape classification of a border-shorthand token, following the
loop's guards: width-shaped (ends in px or starts with a digit), then
style-shaped (known keyword), anything else colour-shaped. -/
def borderColorShaped (p : QStr) : Bool :=
  !(endsWithL p (qs "px") || (p.headD (Char.ofNat 0)).isDigit) &&
    !(p = qs "solid" ∨ p = qs "dashed" ∨ p = qs "dotted" ∨ p = qs "none")

/-- Shape classification of a shadow-shorthand token: numeric (after
stripping px) or colour-shaped. -/
def shadowColorShaped (p : QStr) : Bool :=
  (qtToIntOk (removeAllL (qs "px") p)).isNone

/-- An element of the parsed markup document (text content and
attributes are not represented: the claims below concern only tag
dispatch, tree emptiness and diagnostics). -/
inductive XNode where
  | elem (tag : QStr) (children : List XNode)

/-- Tag name of an element. -/
def XNode.tag : XNode → QStr
  | .elem t _ => t

/-- Children of an element. -/
def XNode.children : XNode → List XNode
  | .elem _ cs => cs

/-- A structural parse error with its 1-based position. -/
structure ParseErr where
  msg : String
  line : ℕ
  col : ℕ
deriving DecidableEq, Repr

/-- Scanner modes of the well-formedness checker. -/
inductive XMode where
  | text
  | sawLt
  | openName (acc : QStr)
  | openRest (tag : QStr)
  | sawSlash (tag : QStr)
  | closeName (acc : QStr)
  | closeRest (tag : QStr)
deriving DecidableEq, Repr

/-- Scanner state: mode, stack of open elements with the children
collected so far (in reverse), finished top-level elements (in
reverse), and the current position. -/
structure XPState where
  mode : XMode
  stack : List (QStr × List XNode)
  roots : List XNode
  line : ℕ
  col : ℕ

/-- Characters allowed inside tag names. -/
def isNameChar (c : Char) : Bool :=
  c.isAlphanum || c = '-' || c = '_' || c = ':'

/-- Attach a finished element to the innermost open element, or record
it as a top-level root. -/
def emitNode (n : XNode) (st : XPState) : XPState :=
  match st.stack with
  | (pt, pcs) :: rest => { st with stack := (pt, n :: pcs) :: rest }
  | [] => { st with roots := n :: st.roots }

/-- Handle a closing tag: the innermost open element must match. -/
def doClose (name : QStr) (st : XPState) : Except ParseErr XPState :=
  match st.stack with
  | [] => .error ⟨"unexpected closing tag", st.line, st.col⟩
  | (t, cs) :: rest =>
    if t = name then
      .ok (emitNode (.elem t cs.reverse) { st with mode := .text, stack := rest })
    else .error ⟨"tag mismatch", st.line, st.col⟩

/-- Advance the 1-based position over one character. -/
def advancePos (c : Char) (st : XPState) : XPState :=
  if c = '\n' then { st with line := st.line + 1, col := 1 }
  else { st with col := st.col + 1 }

/-- One scanner transition, before the position advances. -/
def xstepCore (st : XPState) (c : Char) : Except ParseErr XPState :=
  match st.mode with
  | .text =>
    if c = '<' then .ok { st with mode := .sawLt } else .ok st
  | .sawLt =>
    if c = '/' then .ok { st with mode := .closeName [] }
    else if c.isAlpha || c = '_' then .ok { st with mode := .openName [c] }
    else .error ⟨"unexpected character after opening angle bracket", st.line, st.col⟩
  | .openName acc =>
    if isNameChar c then .ok { st with mode := .openName (acc ++ [c]) }
    else if c = '>' then
      .ok { st with mode := .text, stack := (acc, []) :: st.stack }
    else if c = '/' then .ok { st with mode := .sawSlash acc }
    else if isQSpace c then .ok { st with mode := .openRest acc }
    else .error ⟨"unexpected character in tag name", st.line, st.col⟩
  | .openRest tag =>
    if c = '>' then
      .ok { st with mode := .text, stack := (tag, []) :: st.stack }
    else if c = '/' then .ok { st with mode := .sawSlash tag }
    else .ok st
  | .sawSlash tag =>
    if c = '>' then .ok (emitNode (.elem tag []) { st with mode := .text })
    else .error ⟨"expected closing angle bracket", st.line, st.col⟩
  | .closeName acc =>
    if isNameChar c then .ok { st with mode := .closeName (acc ++ [c]) }
    else if c = '>' then doClose acc st
    else if isQSpace c ∧ acc ≠ [] then .ok { st with mode := .closeRest acc }
    else .error ⟨"unexpected character in closing tag", st.line, st.col⟩
  | .closeRest name =>
    if isQSpace c then .ok st
    else if c = '>' then doClose name st
    else .error ⟨"unexpected character in closing tag", st.line, st.col⟩

/-- One scanner step including the position advance. -/
def xstep (st : XPState) (c : Char) : Except ParseErr XPState :=
  (xstepCore st c).map (advancePos c)

/-- End-of-input check: everything closed and exactly one root. -/
def xfinal (st : XPState) : Except ParseErr XNode :=
  match st.mode with
  | .text =>
    match st.stack with
    | _ :: _ => .error ⟨"unexpected end of document: unclosed element", st.line, st.col⟩
    | [] =>
      match st.roots.reverse with
      | [root] => .ok root
      | [] => .error ⟨"no root element", st.line, st.col⟩
      | _ => .error ⟨"extra content at end of document", st.line, st.col⟩
  | _ => .error ⟨"unexpected end of document inside markup", st.line, st.col⟩

/-- Modelled from the spec: the markup well-formedness primitive
(QDomDocument::setContent) is external library code, not part of this
repository.  Per §4.2/§7 it either yields the document tree or reports a
single structural failure with a line/column position; this model is a
simplified single-pass checker (comments, processing instructions, and
quoted attribute values containing angle brackets are not modelled). -/
def setContent (l : QStr) : Except ParseErr XNode :=
  (l.foldl (fun acc c => acc >>= fun st => xstep st c)
    (.ok ⟨.text, [], [], 1, 1⟩)) >>= xfinal

/-- A diagnostic as emitted through the parseError signal, with the C++
int line/column. -/
structure Diag where
  msg : String
  line : ℤ
  col : ℤ
deriving DecidableEq, Repr

/-- A widget produced by XMLParser::parseWidget.  Construction details
(dimensions, properties, children) are irrelevant to the claims below,
which only count widgets; the description element is retained. -/
structure MWidget where
  desc : XNode

namespace XMLParser

/-- Model of XMLParser::parseWidget: always yields a widget. -/
def parseWidget (e : XNode) : MWidget := ⟨e⟩

/-- Model of XMLParser::parseString: on setContent failure emit one
parseError diagnostic and return no widgets; otherwise dispatch on the
root tag (a widgets/milk wrapper takes its widget children, a widget
root yields itself, and any other root silently yields nothing). -/
def parseString (xml : QStr) : List MWidget × List Diag :=
  match setContent xml with
  | .error e => ([], [⟨e.msg, (e.line : ℤ), (e.col : ℤ)⟩])
  | .ok root =>
    if root.tag = qs "widgets" ∨ root.tag = qs "milk" then
      (((root.children.filter (fun c => c.tag = qs "widget")).map parseWidget), [])
    else if root.tag = qs "widget" then
      ([parseWidget root], [])
    else ([], [])

end XMLParser

/-- The per-widget animation bookkeeping: the m_animations map (name to
a fresh animation identifier), the ordered record of finished-handler
invocations (the handler emits animationFinished and invokes the user's
completion callback), and the next fresh identifier. -/
structure AnimState where
  anims : List (QStr × ℕ)
  fired : List ℕ
  nextId : ℕ

/-- The animation state of a freshly constructed widget. -/
def AnimState.init : AnimState := ⟨[], [], 0⟩

namespace Widget

/-- Model of Widget::stopAnimation: stop, delete, and drop the map entry
for the name.  Qt's stop() on a mid-run animation does not emit
finished, so no completion is recorded. -/
def stopAnimation (st : AnimState) (name : QStr) : AnimState :=
  { st with anims := st.anims.filter (fun p => p.1 ≠ name) }

/-- Model of the shared start pattern of fadeIn/fadeOut/fadeTo/bounce/
pulse/shake: stopAnimation on the slot name, then register a fresh
animation under that name and start it. -/
def startNamed (st : AnimState) (name : QStr) : AnimState :=
  let st1 := stopAnimation st name
  { st1 with anims := (name, st.nextId) :: st1.anims, nextId := st.nextId + 1 }

/-- Model of Widget::fadeIn: replaces any running "fade" animation via
stopAnimation and registers a fresh one whose finished handler emits
animationFinished and invokes the user completion callback. -/
def fadeIn (st : AnimState) : AnimState := startNamed st (qs "fade")

/-- Model of Widget::fadeOut: same "fade" slot protocol as fadeIn. -/
def fadeOut (st : AnimState) : AnimState := startNamed st (qs "fade")

/-- Model of Widget::fadeTo: same "fade" slot protocol (its finished
handler only cleans up and fires no user callback). -/
def fadeTo (st : AnimState) : AnimState := startNamed st (qs "fade")

/-- Model of natural completion: Qt emits finished for the animation
registered under the name; its handler removes the map entry and fires
the completion notification.  A stopped (cancelled) animation is no
longer in the map and can never reach this point. -/
def animFinished (st : AnimState) (name : QStr) : AnimState :=
  match st.anims.find? (fun p => p.1 = name) with
  | some p =>
    { st with
        anims := st.anims.filter (fun q => q.1 ≠ name)
        fired := st.fired ++ [p.2] }
  | none => st

end Widget

/-- Animation-coordinator events: an animate-request for a name, an
explicit stop, or a natural completion. -/
inductive AnimEvent where
  | start (name : QStr)
  | stopEvt (name : QStr)
  | finish (name : QStr)

/-- Apply one animation event. -/
def AnimState.step (st : AnimState) : AnimEvent → AnimState
  | .start n => Widget.startNamed st n
  | .stopEvt n => Widget.stopAnimation st n
  | .finish n => Widget.animFinished st n

/-- Run a sequence of animation events. -/
def AnimState.run (st : AnimState) (evts : List AnimEvent) : AnimState :=
  evts.foldl AnimState.step st

/-- Well-formedness: every registered and every fired identifier is
below the fresh counter. -/
def AnimState.wf (st : AnimState) : Prop :=
  (∀ p ∈ st.anims, p.2 < st.nextId) ∧ (∀ i ∈ st.fired, i < st.nextId)

/-- Model of qBound(min, val, max) = qMax(min, qMin(max, val)). -/
def qBound (lo x hi : ℚ) : ℚ := max lo (min hi x)

namespace Widget

/-- Model of Widget::setOpacity acting on the stored m_opacity. -/
def setOpacity (x : ℚ) : ℚ := qBound 0 x 1

/-- Model of the opacity part of Widget::setStyle: setOpacity is invoked
only when the sheet's opacity is below 1. -/
def setStyleOpacity (st : ℚ) (sheet : StyleSheet) : ℚ :=
  if sheet.opacity < 1 then setOpacity sheet.opacity else st

/-- The initial m_opacity of a freshly constructed widget. -/
def initOpacity : ℚ := 1

end Widget

/-- The operations that write the stored opacity: a direct setOpacity
call, a style application, and the markup opacity attribute (which
passes attribute.toDouble() to setOpacity unchecked). -/
inductive OpacityOp where
  | set (x : ℚ)
  | style (sheet : StyleSheet)
  | xmlAttr (raw : QStr)

/-- Apply one opacity-writing operation to the stored m_opacity. -/
def applyOpacityOp (st : ℚ) : OpacityOp → ℚ
  | .set x => Widget.setOpacity x
  | .style sheet => Widget.setStyleOpacity st sheet
  | .xmlAttr raw => Widget.setOpacity (qtToDouble raw)

/-- Run a sequence of opacity-writing operations. -/
def runOpacityOps (st : ℚ) (ops : List OpacityOp) : ℚ :=
  ops.foldl applyOpacityOp st

/-- The alpha reading prescribed by the specification's decimal-point
heuristic: a token containing a point is a 0.0-1.0 fraction scaled to
0-255 (truncated), otherwise a 0-255 integer. -/
def alphaHeuristic (t : QStr) : ℤ :=
  if t.contains '.' then ratScale255Trunc (qtToDouble t) else qtToInt t

/-- An rgba() colour string assembled from decimal channel renderings
and an arbitrary alpha token. -/
def rgbaStrOf (r g b : ℕ) (t : QStr) : QStr :=
  qs "rgba(" ++ natToChars r ++ [','] ++ natToChars g ++ [','] ++
    natToChars b ++ [','] ++ t ++ [')']

end Milk

namespace Milk

/-! Generic character and string lemmas. -/

lemma dropWhile_eq_self_of_head {p : Char → Bool} :
    ∀ l : QStr, (l = [] ∨ ∃ x xs, l = x :: xs ∧ p x = false) →
      l.dropWhile p = l := by
  intro l h
  rcases h with h | ⟨x, xs, rfl, hx⟩
  · simp [h]
  · simp [List.dropWhile_cons, hx]

lemma trimL_of_edges (x y : Char) (l : QStr) (hx : isQSpace x = false)
    (hy : isQSpace y = false) :
    trimL (x :: (l ++ [y])) = x :: (l ++ [y]) := by
  unfold trimL
  rw [dropWhile_eq_self_of_head _ (Or.inr ⟨x, l ++ [y], rfl, hx⟩)]
  rw [show (x :: (l ++ [y])).reverse = y :: (l.reverse ++ [x]) by simp]
  rw [dropWhile_eq_self_of_head _ (Or.inr ⟨y, l.reverse ++ [x], rfl, hy⟩)]
  simp

lemma trimL_singleton_of (x : Char) (hx : isQSpace x = false) :
    trimL [x] = [x] := by
  unfold trimL
  simp [List.dropWhile_cons, hx]

lemma trimL_cons_space (l : QStr) : trimL (' ' :: l) = trimL l := by
  unfold trimL
  have : isQSpace ' ' = true := by decide
  cases h : l.dropWhile isQSpace <;>
    simp [List.dropWhile_cons, this, h]

lemma dropWhile_eq_self_of_all (p : Char → Bool) (l : QStr)
    (h : ∀ c ∈ l, p c = false) : l.dropWhile p = l := by
  cases l with
  | nil => rfl
  | cons x xs => simp [List.dropWhile_cons, h x (List.mem_cons_self x xs)]

lemma trimL_eq_self (l : QStr) (h : ∀ c ∈ l, isQSpace c = false) :
    trimL l = l := by
  unfold trimL
  rw [dropWhile_eq_self_of_all _ l h,
    dropWhile_eq_self_of_all _ l.reverse
      (fun c hc => h c (by simpa using hc)),
    List.reverse_reverse]

lemma lowerL_append (a b : QStr) : lowerL (a ++ b) = lowerL a ++ lowerL b := by
  simp [lowerL]

lemma lowerL_eq_self (l : QStr) (h : ∀ c ∈ l, c.toLower = c) :
    lowerL l = l := by
  unfold lowerL
  exact List.map_congr_left h |>.trans (List.map_id l)

/-! Character-class facts. -/

lemma isQSpace_eq_false_of_isDigit (c : Char) (h : c.isDigit = true) :
    isQSpace c = false := by
  by_contra hn
  have h2 : isQSpace c = true := by
    cases e : isQSpace c
    · exact absurd e hn
    · rfl
  unfold isQSpace at h2
  simp only [Bool.or_eq_true, decide_eq_true_eq] at h2
  rcases h2 with ((((h2 | h2) | h2) | h2) | h2) | h2 <;> subst h2 <;>
    simp [Char.isDigit] at h

lemma ne_of_isDigit (c d : Char) (hd : d.isDigit = false)
    (h : c.isDigit = true) : c ≠ d := by
  intro e
  rw [e, hd] at h
  exact Bool.false_ne_true h

/-! splitCh lemmas. -/

lemma splitCh_of_not_mem (c : Char) (l : QStr) (h : ∀ x ∈ l, x ≠ c) :
    splitCh c l = [l] := by
  induction l with
  | nil => rfl
  | cons x xs ih =>
    have hx : ¬(x = c) := h x (List.mem_cons_self x xs)
    rw [splitCh, if_neg hx, ih (fun y hy => h y (List.mem_cons_of_mem x hy))]

lemma splitCh_ne_nil (c : Char) (l : QStr) : splitCh c l ≠ [] := by
  cases l with
  | nil => simp [splitCh]
  | cons x xs =>
    rw [splitCh]
    split
    · simp
    · cases h : splitCh c xs <;> simp

lemma splitCh_append_cons (c : Char) (xs ys : QStr)
    (h : ∀ x ∈ xs, x ≠ c) :
    splitCh c (xs ++ c :: ys) = xs :: splitCh c ys := by
  induction xs with
  | nil => simp [splitCh]
  | cons x xt ih =>
    have hx : ¬(x = c) := h x (List.mem_cons_self x xt)
    rw [List.cons_append, splitCh, if_neg hx,
      ih (fun y hy => h y (List.mem_cons_of_mem x hy))]

/-! Decimal digit rendering lemmas. -/

lemma digitChar_facts : ∀ n < 10, (digitChar n).toLower = digitChar n ∧
    isQSpace (digitChar n) = false ∧ (digitChar n).isDigit = true ∧
    (digitChar n).toNat = 48 + n := by decide

lemma natToCharsAux_append : ∀ (fuel n : ℕ) (acc : QStr),
    natToCharsAux fuel n acc = natToCharsAux fuel n [] ++ acc := by
  intro fuel
  induction fuel with
  | zero => intro n acc; rfl
  | succ f ih =>
    intro n acc
    unfold natToCharsAux
    by_cases h : n < 10
    · simp [h]
    · simp only [if_neg h]
      rw [ih (n / 10) (digitChar (n % 10) :: acc),
        ih (n / 10) [digitChar (n % 10)]]
      simp

lemma natToCharsAux_fuel (n : ℕ) : ∀ fuel fuel' : ℕ, n < fuel → n < fuel' →
    natToCharsAux fuel n [] = natToCharsAux fuel' n [] := by
  induction n using Nat.strong_induction_on with
  | _ n ih =>
    intro fuel fuel' h h'
    cases fuel with
    | zero => omega
    | succ f =>
      cases fuel' with
      | zero => omega
      | succ f' =>
        unfold natToCharsAux
        by_cases h10 : n < 10
        · simp [h10]
        · simp only [if_neg h10]
          rw [natToCharsAux_append f, natToCharsAux_append f']
          rw [ih (n / 10) (by omega) f f' (by omega) (by omega)]

/-- One-step unfolding of the decimal rendering. -/
lemma natToChars_eq (n : ℕ) : natToChars n =
    if n < 10 then [digitChar n]
    else natToChars (n / 10) ++ [digitChar (n % 10)] := by
  by_cases h : n < 10
  · show natToCharsAux (n + 1) n [] = _
    conv_lhs => rw [natToCharsAux]
    simp [h]
  · show natToCharsAux (n + 1) n [] = _
    conv_lhs => rw [natToCharsAux]
    rw [if_neg h, if_neg h]
    rw [natToCharsAux_append n (n / 10)]
    rw [natToCharsAux_fuel (n / 10) n (n / 10 + 1) (by omega) (by omega)]
    rfl

lemma natToChars_shape (n : ℕ) :
    ∀ c ∈ natToChars n, ∃ k, k < 10 ∧ c = digitChar k := by
  induction n using Nat.strong_induction_on with
  | _ n ih =>
    intro c hc
    rw [natToChars_eq] at hc
    by_cases h : n < 10
    · rw [if_pos h] at hc
      simp at hc
      exact ⟨n, h, hc⟩
    · rw [if_neg h] at hc
      rcases List.mem_append.mp hc with hc | hc
      · exact ih (n / 10) (by omega) c hc
      · simp at hc
        exact ⟨n % 10, by omega, hc⟩

lemma natToChars_isDigit (n : ℕ) : ∀ c ∈ natToChars n, c.isDigit = true := by
  intro c hc
  obtain ⟨k, hk, rfl⟩ := natToChars_shape n c hc
  exact (digitChar_facts k hk).2.2.1

lemma natToChars_notSpace (n : ℕ) :
    ∀ c ∈ natToChars n, isQSpace c = false := by
  intro c hc
  exact isQSpace_eq_false_of_isDigit c (natToChars_isDigit n c hc)

lemma natToChars_toLower (n : ℕ) : ∀ c ∈ natToChars n, c.toLower = c := by
  intro c hc
  obtain ⟨k, hk, rfl⟩ := natToChars_shape n c hc
  exact (digitChar_facts k hk).1

lemma natToChars_ne_nil (n : ℕ) : natToChars n ≠ [] := by
  rw [natToChars_eq]
  by_cases h : n < 10
  · rw [if_pos h]; simp
  · rw [if_neg h]; simp

lemma natToChars_not_comma (n : ℕ) : ∀ c ∈ natToChars n, c ≠ ',' := by
  intro c hc
  exact ne_of_isDigit c ',' (by decide) (natToChars_isDigit n c hc)

lemma digitsVal_append_singleton (xs : QStr) (d : Char) :
    digitsVal (xs ++ [d]) = 10 * digitsVal xs + (d.toNat - 48) := by
  unfold digitsVal
  rw [List.foldl_append]
  rfl

lemma digitsVal_natToChars (n : ℕ) : digitsVal (natToChars n) = n := by
  induction n using Nat.strong_induction_on with
  | _ n ih =>
    rw [natToChars_eq]
    by_cases h : n < 10
    · rw [if_pos h]
      have := (digitChar_facts n h).2.2.2
      unfold digitsVal
      simp [this]
    · rw [if_neg h]
      rw [digitsVal_append_singleton, ih (n / 10) (by omega)]
      have := (digitChar_facts (n % 10) (by omega)).2.2.2
      omega

/-! QString::toInt on digit strings. -/

lemma qtToIntOk_digits (l : QStr) (h1 : l ≠ [])
    (h2 : ∀ c ∈ l, c.isDigit = true) :
    qtToIntOk l = some (digitsVal l) := by
  cases l with
  | nil => exact absurd rfl h1
  | cons c cs =>
    have hc : c.isDigit = true := h2 c (List.mem_cons_self c cs)
    have ht : trimL (c :: cs) = c :: cs :=
      trimL_eq_self _ (fun x hx => isQSpace_eq_false_of_isDigit x (h2 x hx))
    unfold qtToIntOk
    rw [ht]
    simp only []
    rw [if_neg (ne_of_isDigit c '+' (by decide) hc),
      if_neg (ne_of_isDigit c '-' (by decide) hc),
      if_pos (by simpa [List.all_eq_true] using h2)]
    rfl

lemma qtToInt_natToChars (n : ℕ) : qtToInt (natToChars n) = n := by
  unfold qtToInt
  rw [qtToIntOk_digits (natToChars n) (natToChars_ne_nil n)
    (natToChars_isDigit n), digitsVal_natToChars]
  rfl

/-! QString::mid slicing as used by the colour branches. -/

lemma qmid_strip (k : ℕ) (pre body : QStr) (hpre : pre.length = k) :
    qmid (pre ++ (body ++ [')'])) k
      (((pre ++ (body ++ [')'])).length : ℤ) - ((k : ℤ) + 1)) = body := by
  unfold qmid
  have hlen : (pre ++ (body ++ [')'])).length = k + body.length + 1 := by
    simp [hpre]
    omega
  rw [hlen]
  rw [if_neg (by push_cast; omega)]
  have h1 : (((k + body.length + 1 : ℕ) : ℤ) - ((k : ℤ) + 1)).toNat =
      body.length := by
    push_cast
    omega
  rw [h1, ← hpre, List.drop_left, List.take_left]

/-! Evaluation of the rgb(/rgba( branches on assembled strings. -/

lemma rgbBranch_build (p1 p2 p3 : QStr)
    (h1 : ∀ x ∈ p1, x ≠ ',') (h2 : ∀ x ∈ p2, x ≠ ',')
    (h3 : ∀ x ∈ p3, x ≠ ',') :
    Color.rgbBranch (qs "rgb(" ++ p1 ++ [','] ++ p2 ++ [','] ++ p3 ++ [')']) =
      some (QColor.mkRgb (qtToInt (trimL p1)) (qtToInt (trimL p2))
        (qtToInt (trimL p3)) 255) := by
  have hs : qs "rgb(" ++ p1 ++ [','] ++ p2 ++ [','] ++ p3 ++ [')'] =
      qs "rgb(" ++ ((p1 ++ ',' :: (p2 ++ ',' :: p3)) ++ [')']) := by
    simp [List.append_assoc]
  rw [hs]
  unfold Color.rgbBranch
  have hstart : startsWithL
      (qs "rgb(" ++ ((p1 ++ ',' :: (p2 ++ ',' :: p3)) ++ [')']))
      (qs "rgb(") = true := rfl
  rw [hstart]
  simp only [if_true]
  have hmid := qmid_strip 4 (qs "rgb(") (p1 ++ ',' :: (p2 ++ ',' :: p3)) rfl
  have hc4 : ((4 : ℕ) : ℤ) + 1 = 5 := by norm_num
  rw [hc4] at hmid
  rw [hmid]
  rw [splitCh_append_cons ',' p1 _ h1, splitCh_append_cons ',' p2 _ h2,
    splitCh_of_not_mem ',' p3 h3]
  rfl

lemma rgbaBranch_build (p1 p2 p3 p4 : QStr)
    (h1 : ∀ x ∈ p1, x ≠ ',') (h2 : ∀ x ∈ p2, x ≠ ',')
    (h3 : ∀ x ∈ p3, x ≠ ',') (h4 : ∀ x ∈ p4, x ≠ ',') :
    Color.rgbaBranch
      (qs "rgba(" ++ p1 ++ [','] ++ p2 ++ [','] ++ p3 ++ [','] ++ p4 ++ [')']) =
      some (QColor.mkRgb (qtToInt (trimL p1)) (qtToInt (trimL p2))
        (qtToInt (trimL p3))
        (if (trimL p4).contains '.' then
          ratScale255Trunc (qtToDouble (trimL p4))
        else qtToInt (trimL p4))) := by
  have hs : qs "rgba(" ++ p1 ++ [','] ++ p2 ++ [','] ++ p3 ++ [','] ++ p4 ++ [')'] =
      qs "rgba(" ++ ((p1 ++ ',' :: (p2 ++ ',' :: (p3 ++ ',' :: p4))) ++ [')']) := by
    simp [List.append_assoc]
  rw [hs]
  unfold Color.rgbaBranch
  have hstart : startsWithL
      (qs "rgba(" ++ ((p1 ++ ',' :: (p2 ++ ',' :: (p3 ++ ',' :: p4))) ++ [')']))
      (qs "rgba(") = true := rfl
  rw [hstart]
  simp only [if_true]
  have hmid := qmid_strip 5 (qs "rgba(")
    (p1 ++ ',' :: (p2 ++ ',' :: (p3 ++ ',' :: p4))) rfl
  have hc5 : ((5 : ℕ) : ℤ) + 1 = 6 := by norm_num
  rw [hc5] at hmid
  rw [hmid]
  rw [splitCh_append_cons ',' p1 _ h1, splitCh_append_cons ',' p2 _ h2,
    splitCh_append_cons ',' p3 _ h3, splitCh_of_not_mem ',' p4 h4]
  rfl

/-! Trim and lowercase fixpoints for assembled colour strings. -/

lemma trimL_eq_self_of_head_getLast (s : QStr) (x y : Char)
    (hh : s.head? = some x) (hx : isQSpace x = false)
    (hl : s.getLast? = some y) (hy : isQSpace y = false) : trimL s = s := by
  unfold trimL
  have h1 : s.dropWhile isQSpace = s := by
    cases s with
    | nil => rfl
    | cons a as =>
      have ha : a = x := by simpa using hh
      subst ha
      simp [List.dropWhile_cons, hx]
  rw [h1]
  have h2 : s.reverse.dropWhile isQSpace = s.reverse := by
    cases e : s.reverse with
    | nil => rfl
    | cons b bs =>
      have hb : s.getLast? = some b := by
        rw [← List.head?_reverse, e]
        rfl
      have hby : b = y := by
        rw [hb] at hl
        simpa using hl
      subst hby
      simp [List.dropWhile_cons, hy]
  rw [h2, List.reverse_reverse]

lemma trimL_natToChars (n : ℕ) : trimL (natToChars n) = natToChars n :=
  trimL_eq_self _ (natToChars_notSpace n)

lemma map_toLower_natToChars (n : ℕ) :
    List.map Char.toLower (natToChars n) = natToChars n :=
  lowerL_eq_self _ (natToChars_toLower n)

lemma qtToInt_trimL_natToChars (n : ℕ) :
    qtToInt (trimL (natToChars n)) = n := by
  rw [trimL_natToChars, qtToInt_natToChars]

lemma rgbaStrOf_getLast (r g b : ℕ) (t : QStr) :
    (rgbaStrOf r g b t).getLast? = some ')' := by
  unfold rgbaStrOf
  rw [List.getLast?_append_of_ne_nil _ (by simp)]
  simp

lemma rgbaStrOf_trim_fix (r g b : ℕ) (t : QStr) :
    trimL (rgbaStrOf r g b t) = rgbaStrOf r g b t :=
  trimL_eq_self_of_head_getLast _ 'r' ')' rfl (by decide)
    (rgbaStrOf_getLast r g b t) (by decide)

lemma rgbaStrOf_lower_fix (r g b : ℕ) (t : QStr)
    (ht : lowerL t = t) : lowerL (rgbaStrOf r g b t) = rgbaStrOf r g b t := by
  unfold rgbaStrOf lowerL
  unfold lowerL at ht
  simp only [List.map_append]
  rw [show List.map Char.toLower (qs "rgba(") = qs "rgba(" from rfl,
    show List.map Char.toLower [','] = [','] from rfl,
    show List.map Char.toLower [')'] = [')'] from rfl,
    map_toLower_natToChars, map_toLower_natToChars, map_toLower_natToChars,
    ht]

/-- A field set in the override ends up with the override's value. -/
lemma merge_fieldIsSet (f : Field) (a b : StyleSheet)
    (h : fieldIsSet f b = true) :
    fieldEqOn f (CSSParser.merge a b) b = true := by
  cases f <;> simp_all [CSSParser.merge, fieldIsSet, fieldEqOn]

/-- A field unset in the override keeps the base's value. -/
lemma merge_fieldUnset (f : Field) (a b : StyleSheet)
    (h : fieldIsSet f b = false) :
    fieldEqOn f (CSSParser.merge a b) a = true := by
  cases f <;> simp_all [CSSParser.merge, fieldIsSet, fieldEqOn]

/-- Agreement on a field rewrites along an agreeing sheet. -/
lemma fieldEqOn_congr_left (f : Field) (s t u : StyleSheet)
    (h : fieldEqOn f s t = true) :
    fieldEqOn f s u = fieldEqOn f t u := by
  cases f <;> simp only [fieldEqOn, decide_eq_true_eq] at h ⊢ <;>
    simp_all

/-- Evaluation of Color::parse when the string is already trimmed and
lowercase, the rgb( branch falls through, and the rgba( branch fires. -/
lemma Color.parse_rgba_some (str : QStr) (c : QColor)
    (ht : trimL str = str) (hl : lowerL str = str)
    (h1 : Color.rgbBranch str = none)
    (h2 : Color.rgbaBranch str = some c) :
    Color.parse str = c := by
  simp only [Color.parse]
  rw [ht, hl, h1, h2]

/-- Evaluation of Color::parse when the string is already trimmed and
lowercase and the rgb( branch fires. -/
lemma Color.parse_rgb_some (str : QStr) (c : QColor)
    (ht : trimL str = str) (hl : lowerL str = str)
    (h : Color.rgbBranch str = some c) :
    Color.parse str = c := by
  simp only [Color.parse]
  rw [ht, hl, h]

/-- Evaluation of Color::parse when every branch falls through to the
QColor(QString) constructor on the original string. -/
lemma Color.parse_fallback (str : QStr)
    (h3 : startsWithL (lowerL (trimL str)) (qs "rgb(") = false)
    (h4 : startsWithL (lowerL (trimL str)) (qs "rgba(") = false)
    (h5 : startsWithL (lowerL (trimL str)) (qs "hsl(") = false)
    (h6 : Color.namedBranch (lowerL (trimL str)) = none) :
    Color.parse str = qcolorFromString str := by
  have hb1 : Color.rgbBranch (lowerL (trimL str)) = none := by
    unfold Color.rgbBranch
    rw [h3]
    simp
  have hb2 : Color.rgbaBranch (lowerL (trimL str)) = none := by
    unfold Color.rgbaBranch
    rw [h4]
    simp
  have hb3 : Color.hslBranch (lowerL (trimL str)) = none := by
    unfold Color.hslBranch
    rw [h5]
    simp
  simp only [Color.parse]
  rw [hb1, hb2, hb3, h6]

/-- The in-range QColor constructor stores its channels. -/
lemma mkRgb_of_le (r g b a : ℕ) (hr : r ≤ 255) (hg : g ≤ 255)
    (hb : b ≤ 255) (ha : a ≤ 255) :
    QColor.mkRgb r g b a = QColor.rgb r g b a := by
  unfold QColor.mkRgb
  rw [if_pos (by omega)]
  simp

/-- The decimal rendering never contains a decimal point. -/
lemma natToChars_not_contains_dot (n : ℕ) :
    (natToChars n).contains '.' = false := by
  cases e : (natToChars n).contains '.' with
  | false => rfl
  | true =>
    have hmem : '.' ∈ natToChars n := by
      simpa [List.contains] using e
    have := natToChars_isDigit n '.' hmem
    simp [Char.isDigit] at this

/-- Hex digit characters are lowercase non-space non-alpha-fixed. -/
lemma hexDigitChar_facts : ∀ m < 16, (hexDigitChar m).toLower = hexDigitChar m ∧
    isQSpace (hexDigitChar m) = false := by decide

/-- Each byte renders to its two hex digits and back. -/
lemma hexValL_byteHex : ∀ n < 256, hexValL (byteHex n) = some n := by decide

/-- The in-range QColor constructor at natural channels and an integer
alpha stores the channels. -/
lemma mkRgb_nat (r g b : ℕ) (a : ℤ) (hr : r ≤ 255) (hg : g ≤ 255)
    (hb : b ≤ 255) (ha0 : 0 ≤ a) (ha : a ≤ 255) :
    QColor.mkRgb r g b a = QColor.rgb r g b a.toNat := by
  unfold QColor.mkRgb
  rw [if_pos (by omega)]
  simp

lemma qtToInt_space_natToChars (n : ℕ) :
    qtToInt (trimL (' ' :: natToChars n)) = n := by
  rw [trimL_cons_space, trimL_natToChars, qtToInt_natToChars]

lemma space_natToChars_not_comma (n : ℕ) :
    ∀ x ∈ ' ' :: natToChars n, x ≠ ',' := by
  intro x hx
  rcases List.mem_cons.mp hx with rfl | hx
  · decide
  · exact natToChars_not_comma n x hx

/-- Round trip for the rgb( format: parse of toRgb restores channels. -/
lemma rgb_roundtrip (r g b : ℕ) (hr : r ≤ 255) (hg : g ≤ 255)
    (hb : b ≤ 255) :
    Color.parse (Color.toRgb (QColor.rgb r g b 255)) =
      QColor.rgb r g b 255 := by
  have hstr : Color.toRgb (QColor.rgb r g b 255) =
      qs "rgb(" ++ natToChars r ++ [','] ++ (' ' :: natToChars g) ++ [','] ++
        (' ' :: natToChars b) ++ [')'] := by
    show qs "rgb(" ++ natToChars r ++ qs ", " ++ natToChars g ++ qs ", " ++
        natToChars b ++ qs ")" = _
    simp [show qs ", " = [','] ++ [' '] from rfl,
      show qs ")" = [')'] from rfl, List.append_assoc]
  rw [hstr]
  have hlast : (qs "rgb(" ++ natToChars r ++ [','] ++ (' ' :: natToChars g) ++
      [','] ++ (' ' :: natToChars b) ++ [')']).getLast? = some ')' := by
    rw [List.getLast?_append_of_ne_nil _ (by simp)]
    rfl
  have htrim := trimL_eq_self_of_head_getLast
    (qs "rgb(" ++ natToChars r ++ [','] ++ (' ' :: natToChars g) ++ [','] ++
      (' ' :: natToChars b) ++ [')']) 'r' ')' rfl (by decide) hlast (by decide)
  have hlow : lowerL (qs "rgb(" ++ natToChars r ++ [','] ++
      (' ' :: natToChars g) ++ [','] ++ (' ' :: natToChars b) ++ [')']) =
      qs "rgb(" ++ natToChars r ++ [','] ++ (' ' :: natToChars g) ++ [','] ++
        (' ' :: natToChars b) ++ [')'] := by
    simp only [lowerL, List.map_append, List.map_cons, List.map_nil]
    rw [show List.map Char.toLower (qs "rgb(") = qs "rgb(" from rfl,
      show Char.toLower ',' = ',' from rfl,
      show Char.toLower ')' = ')' from rfl,
      show Char.toLower ' ' = ' ' from rfl]
    rw [show (natToChars r).map Char.toLower = natToChars r from
        map_toLower_natToChars r,
      show (natToChars g).map Char.toLower = natToChars g from
        map_toLower_natToChars g,
      show (natToChars b).map Char.toLower = natToChars b from
        map_toLower_natToChars b]
  have hbld := rgbBranch_build (natToChars r) (' ' :: natToChars g)
    (' ' :: natToChars b) (natToChars_not_comma r)
    (space_natToChars_not_comma g) (space_natToChars_not_comma b)
  rw [trimL_natToChars, qtToInt_natToChars, qtToInt_space_natToChars,
    qtToInt_space_natToChars] at hbld
  rw [mkRgb_nat r g b 255 hr hg hb (by omega) (by omega)] at hbld
  rw [Color.parse_rgb_some _ _ htrim hlow hbld]
  rfl

/-- Round trip for the rgba( format: parse of toRgba restores channels
including the integer alpha. -/
lemma rgba_roundtrip (r g b a : ℕ) (hr : r ≤ 255) (hg : g ≤ 255)
    (hb : b ≤ 255) (ha : a ≤ 255) :
    Color.parse (Color.toRgba (QColor.rgb r g b a)) =
      QColor.rgb r g b a := by
  have hstr : Color.toRgba (QColor.rgb r g b a) =
      qs "rgba(" ++ natToChars r ++ [','] ++ (' ' :: natToChars g) ++ [','] ++
        (' ' :: natToChars b) ++ [','] ++ (' ' :: natToChars a) ++ [')'] := by
    show qs "rgba(" ++ natToChars r ++ qs ", " ++ natToChars g ++ qs ", " ++
        natToChars b ++ qs ", " ++ natToChars a ++ qs ")" = _
    simp [show qs ", " = [','] ++ [' '] from rfl,
      show qs ")" = [')'] from rfl, List.append_assoc]
  rw [hstr]
  have hlast : (qs "rgba(" ++ natToChars r ++ [','] ++ (' ' :: natToChars g) ++
      [','] ++ (' ' :: natToChars b) ++ [','] ++ (' ' :: natToChars a) ++
      [')']).getLast? = some ')' := by
    rw [List.getLast?_append_of_ne_nil _ (by simp)]
    rfl
  have htrim := trimL_eq_self_of_head_getLast
    (qs "rgba(" ++ natToChars r ++ [','] ++ (' ' :: natToChars g) ++ [','] ++
      (' ' :: natToChars b) ++ [','] ++ (' ' :: natToChars a) ++ [')'])
    'r' ')' rfl (by decide) hlast (by decide)
  have hlow : lowerL (qs "rgba(" ++ natToChars r ++ [','] ++
      (' ' :: natToChars g) ++ [','] ++ (' ' :: natToChars b) ++ [','] ++
      (' ' :: natToChars a) ++ [')']) =
      qs "rgba(" ++ natToChars r ++ [','] ++ (' ' :: natToChars g) ++ [','] ++
        (' ' :: natToChars b) ++ [','] ++ (' ' :: natToChars a) ++ [')'] := by
    simp only [lowerL, List.map_append, List.map_cons, List.map_nil]
    rw [show List.map Char.toLower (qs "rgba(") = qs "rgba(" from rfl,
      show Char.toLower ',' = ',' from rfl,
      show Char.toLower ')' = ')' from rfl,
      show Char.toLower ' ' = ' ' from rfl]
    rw [show (natToChars r).map Char.toLower = natToChars r from
        map_toLower_natToChars r,
      show (natToChars g).map Char.toLower = natToChars g from
        map_toLower_natToChars g,
      show (natToChars b).map Char.toLower = natToChars b from
        map_toLower_natToChars b,
      show (natToChars a).map Char.toLower = natToChars a from
        map_toLower_natToChars a]
  have hbld := rgbaBranch_build (natToChars r) (' ' :: natToChars g)
    (' ' :: natToChars b) (' ' :: natToChars a) (natToChars_not_comma r)
    (space_natToChars_not_comma g) (space_natToChars_not_comma b)
    (space_natToChars_not_comma a)
  rw [trimL_natToChars, qtToInt_natToChars, qtToInt_space_natToChars,
    qtToInt_space_natToChars] at hbld
  rw [trimL_cons_space, trimL_natToChars] at hbld
  rw [natToChars_not_contains_dot a] at hbld
  rw [if_neg (by simp)] at hbld
  rw [qtToInt_natToChars] at hbld
  rw [mkRgb_nat r g b a hr hg hb (by omega) (by omega)] at hbld
  rw [Color.parse_rgba_some _ _ htrim hlow ?hnone hbld]
  · rfl
  case hnone =>
    unfold Color.rgbBranch
    rw [show startsWithL (qs "rgba(" ++ natToChars r ++ [','] ++
        (' ' :: natToChars g) ++ [','] ++ (' ' :: natToChars b) ++ [','] ++
        (' ' :: natToChars a) ++ [')']) (qs "rgb(") = false from rfl]
    simp

/-- Round trip for the hex format: parse of toHex (QColor::name)
restores the channels of an opaque colour. -/
lemma hex_roundtrip (r g b : ℕ) (hr : r ≤ 255) (hg : g ≤ 255)
    (hb : b ≤ 255) :
    Color.parse (Color.toHex (QColor.rgb r g b 255) false) =
      QColor.rgb r g b 255 := by
  have hstr : Color.toHex (QColor.rgb r g b 255) false =
      '#' :: (byteHex r ++ (byteHex g ++ byteHex b)) := by
    unfold Color.toHex
    rw [if_neg (by simp)]
    rfl
  rw [hstr]
  have hchars : ∀ c ∈ '#' :: (byteHex r ++ (byteHex g ++ byteHex b)),
      isQSpace c = false ∧ c.toLower = c := by
    intro c hc
    rcases List.mem_cons.mp hc with rfl | hc
    · exact ⟨by decide, by decide⟩
    · have hm : ∃ m, m < 16 ∧ c = hexDigitChar m := by
        have hdig : ∀ n : ℕ, n ≤ 255 → c ∈ byteHex n →
            ∃ m, m < 16 ∧ c = hexDigitChar m := by
          intro n hn255 hn
          simp only [byteHex, List.mem_cons, List.not_mem_nil, or_false] at hn
          rcases hn with rfl | rfl
          · exact ⟨n / 16, by omega, rfl⟩
          · exact ⟨n % 16, by omega, rfl⟩
        rcases List.mem_append.mp hc with hc | hc
        · exact hdig r hr hc
        · rcases List.mem_append.mp hc with hc | hc
          · exact hdig g hg hc
          · exact hdig b hb hc
      obtain ⟨m, hm16, rfl⟩ := hm
      exact ⟨(hexDigitChar_facts m hm16).2, (hexDigitChar_facts m hm16).1⟩
  have htrim : trimL ('#' :: (byteHex r ++ (byteHex g ++ byteHex b))) =
      '#' :: (byteHex r ++ (byteHex g ++ byteHex b)) :=
    trimL_eq_self _ (fun c hc => (hchars c hc).1)
  have hlow : lowerL ('#' :: (byteHex r ++ (byteHex g ++ byteHex b))) =
      '#' :: (byteHex r ++ (byteHex g ++ byteHex b)) :=
    lowerL_eq_self _ (fun c hc => (hchars c hc).2)
  have hfb := Color.parse_fallback ('#' :: (byteHex r ++ (byteHex g ++ byteHex b)))
    (by rw [htrim, hlow]; rfl) (by rw [htrim, hlow]; rfl)
    (by rw [htrim, hlow]; rfl) (by rw [htrim, hlow]; rfl)
  rw [hfb]
  rw [show byteHex r ++ (byteHex g ++ byteHex b) =
      [hexDigitChar (r / 16), hexDigitChar (r % 16), hexDigitChar (g / 16),
        hexDigitChar (g % 16), hexDigitChar (b / 16), hexDigitChar (b % 16)]
      from rfl]
  unfold qcolorFromString
  simp only []
  rw [show [hexDigitChar (r / 16), hexDigitChar (r % 16)] = byteHex r from rfl,
    show [hexDigitChar (g / 16), hexDigitChar (g % 16)] = byteHex g from rfl,
    show [hexDigitChar (b / 16), hexDigitChar (b % 16)] = byteHex b from rfl,
    hexValL_byteHex r (by omega), hexValL_byteHex g (by omega),
    hexValL_byteHex b (by omega)]

/-- An animation identifier that is neither registered nor fresh can
never be fired by any later event: events fire only identifiers that
are currently in the map, and newly registered identifiers are fresh. -/
lemma run_count_frozen (evts : List AnimEvent) :
    ∀ (st : AnimState) (id : ℕ), id < st.nextId →
      (∀ p ∈ st.anims, p.2 ≠ id) → (∀ p ∈ st.anims, p.2 < st.nextId) →
      (AnimState.run st evts).fired.count id = st.fired.count id := by
  induction evts with
  | nil =>
    intro st id h1 h2 h3
    rfl
  | cons e rest ih =>
    intro st id h1 h2 h3
    show (AnimState.run (st.step e) rest).fired.count id = st.fired.count id
    cases e with
    | start n =>
      have hcount := ih (st.step (.start n)) id (by
          simp [AnimState.step, Widget.startNamed, Widget.stopAnimation]
          omega)
        (by
          intro p hp
          simp only [AnimState.step, Widget.startNamed,
            Widget.stopAnimation, List.mem_cons] at hp
          rcases hp with rfl | hp
          · omega
          · exact h2 p (List.mem_of_mem_filter hp))
        (by
          intro p hp
          simp only [AnimState.step, Widget.startNamed,
            Widget.stopAnimation, List.mem_cons] at hp
          simp only [AnimState.step, Widget.startNamed, Widget.stopAnimation]
          rcases hp with rfl | hp
          · omega
          · have := h3 p (List.mem_of_mem_filter hp)
            omega)
      rw [hcount]
      rfl
    | stopEvt n =>
      have hcount := ih (st.step (.stopEvt n)) id h1
        (fun p hp => h2 p (List.mem_of_mem_filter hp))
        (fun p hp => h3 p (List.mem_of_mem_filter hp))
      rw [hcount]
      rfl
    | finish n =>
      cases hf : st.anims.find? (fun p => p.1 = n) with
      | none =>
        have hstep : st.step (.finish n) = st := by
          simp [AnimState.step, Widget.animFinished, hf]
        rw [hstep]
        exact ih st id h1 h2 h3
      | some p =>
        have hmem := List.mem_of_find?_eq_some hf
        have hpne : p.2 ≠ id := h2 p hmem
        have hstep : st.step (.finish n) =
            { st with
                anims := st.anims.filter (fun q => q.1 ≠ n)
                fired := st.fired ++ [p.2] } := by
          simp [AnimState.step, Widget.animFinished, hf]
        rw [hstep]
        have hcount := ih
          { st with
              anims := st.anims.filter (fun q => q.1 ≠ n)
              fired := st.fired ++ [p.2] } id h1
          (fun q hq => h2 q (List.mem_of_mem_filter hq))
          (fun q hq => h3 q (List.mem_of_mem_filter hq))
        rw [hcount]
        simp [List.count_append, List.count_cons, hpne]

/-! Last-colour-token lemmas for the border/shadow shorthands. -/

lemma getLast?_cons_eq : ∀ (xs : List QStr) (y : QStr),
    ((y :: xs).getLast? : Option QStr) = some ((xs.getLast?).getD y) := by
  intro xs
  induction xs with
  | nil => intro y; rfl
  | cons z zs ih =>
    intro y
    rw [List.getLast?_cons_cons, ih z]
    simp

lemma borderStep_color (b : Border) (part : QStr) :
    (CSSParser.borderStep b part).color =
      (if borderColorShaped (trimL part) then Color.parse (trimL part)
       else b.color) := by
  by_cases hw : (endsWithL (trimL part) (qs "px") ||
      ((trimL part).headD (Char.ofNat 0)).isDigit) = true
  · have hcs : borderColorShaped (trimL part) = false := by
      unfold borderColorShaped
      rw [hw]
      rfl
    unfold CSSParser.borderStep
    rw [if_pos hw, hcs]
    simp
  · have hwf : (endsWithL (trimL part) (qs "px") ||
        ((trimL part).headD (Char.ofNat 0)).isDigit) = false := by
      simpa using hw
    by_cases hk : trimL part = qs "solid" ∨ trimL part = qs "dashed" ∨
        trimL part = qs "dotted" ∨ trimL part = qs "none"
    · have hcs : borderColorShaped (trimL part) = false := by
        unfold borderColorShaped
        rw [hwf]
        simp [hk]
      unfold CSSParser.borderStep
      rw [if_neg hw, if_pos hk, hcs]
      simp
    · have hcs : borderColorShaped (trimL part) = true := by
        unfold borderColorShaped
        rw [hwf]
        simp [hk]
      unfold CSSParser.borderStep
      rw [if_neg hw, if_neg hk, hcs]
      simp

lemma foldl_borderStep_color (parts : List QStr) :
    ∀ b : Border, ((parts.foldl CSSParser.borderStep b).color) =
      (match ((parts.map trimL).filter borderColorShaped).getLast? with
       | some t => Color.parse t
       | none => b.color) := by
  induction parts with
  | nil => intro b; rfl
  | cons p ps ih =>
    intro b
    rw [List.foldl_cons, ih (CSSParser.borderStep b p), List.map_cons]
    by_cases hc : borderColorShaped (trimL p) = true
    · rw [List.filter_cons_of_pos hc, getLast?_cons_eq]
      cases hrest : (((ps.map trimL).filter borderColorShaped).getLast? :
          Option QStr) with
      | some t => simp [hrest]
      | none =>
        simp only [hrest, Option.getD_none]
        rw [borderStep_color, if_pos hc]
    · rw [List.filter_cons_of_neg hc]
      cases hrest : (((ps.map trimL).filter borderColorShaped).getLast? :
          Option QStr) with
      | some t => simp [hrest]
      | none =>
        simp only [hrest]
        rw [borderStep_color, if_neg hc]

lemma shadowStep_snd (acc : List ℤ × QStr) (part : QStr) :
    (CSSParser.shadowStep acc part).2 =
      (if shadowColorShaped (trimL part) then trimL part else acc.2) := by
  unfold CSSParser.shadowStep shadowColorShaped
  cases hq : qtToIntOk (removeAllL (qs "px") (trimL part)) with
  | none => simp [hq]
  | some n => simp [hq]

lemma shadowStep_fst (acc : List ℤ × QStr) (part : QStr) :
    (CSSParser.shadowStep acc part).1 = acc.1 ∨
      ∃ n, (CSSParser.shadowStep acc part).1 = acc.1 ++ [n] := by
  unfold CSSParser.shadowStep
  cases hq : qtToIntOk (removeAllL (qs "px") (trimL part)) with
  | none => simp [hq]
  | some n => simp [hq]

lemma foldl_shadowStep_snd (parts : List QStr) :
    ∀ acc : List ℤ × QStr, ((parts.foldl CSSParser.shadowStep acc).2) =
      (((parts.map trimL).filter shadowColorShaped).getLast?).getD acc.2 := by
  induction parts with
  | nil => intro acc; rfl
  | cons p ps ih =>
    intro acc
    rw [List.foldl_cons, ih (CSSParser.shadowStep acc p), List.map_cons]
    by_cases hc : shadowColorShaped (trimL p) = true
    · rw [List.filter_cons_of_pos hc, getLast?_cons_eq]
      cases hrest : (((ps.map trimL).filter shadowColorShaped).getLast? :
          Option QStr) with
      | some t => simp [hrest]
      | none =>
        simp only [hrest, Option.getD_none, Option.getD_some]
        rw [shadowStep_snd, if_pos hc]
    · rw [List.filter_cons_of_neg hc]
      cases hrest : (((ps.map trimL).filter shadowColorShaped).getLast? :
          Option QStr) with
      | some t => simp [hrest]
      | none =>
        simp only [hrest, Option.getD_none]
        rw [shadowStep_snd, if_neg hc]

end Milk

open Milk

/-- C6: for every rgba(r,g,b,a) colour string accepted by parseColor,
the alpha component is interpreted by the decimal-point heuristic: an
alpha token containing a decimal point is a 0.0-1.0 fraction scaled to
0-255, otherwise a 0-255 integer; in particular rgba alpha "1" parses
as 1/255, not full opacity. -/
theorem C6_rgba_alpha_decimal_heuristic :
    (∀ (r g b : ℕ) (t : QStr), (∀ x ∈ t, x ≠ ',') →
        trimL t = t → lowerL t = t →
        Color.parse (rgbaStrOf r g b t) =
          QColor.mkRgb r g b (alphaHeuristic t)) ∧
    Color.parse (qs "rgba(10,20,30,1)") = QColor.rgb 10 20 30 1 := by
  constructor
  · intro r g b t hc htr hlo
    have h3 : Color.rgbBranch (rgbaStrOf r g b t) = none := by
      unfold Color.rgbBranch
      rw [show startsWithL (rgbaStrOf r g b t) (qs "rgb(") = false from rfl]
      simp
    have h4 : Color.rgbaBranch (rgbaStrOf r g b t) =
        some (QColor.mkRgb (qtToInt (trimL (natToChars r)))
          (qtToInt (trimL (natToChars g))) (qtToInt (trimL (natToChars b)))
          (if (trimL t).contains '.' then
            ratScale255Trunc (qtToDouble (trimL t))
           else qtToInt (trimL t))) :=
      rgbaBranch_build (natToChars r) (natToChars g) (natToChars b) t
        (natToChars_not_comma r) (natToChars_not_comma g)
        (natToChars_not_comma b) hc
    rw [qtToInt_trimL_natToChars, qtToInt_trimL_natToChars,
      qtToInt_trimL_natToChars, htr] at h4
    rw [Color.parse_rgba_some (rgbaStrOf r g b t) _
      (rgbaStrOf_trim_fix r g b t) (rgbaStrOf_lower_fix r g b t hlo) h3 h4]
    rfl
  · decide

/-- Witness for C6 at the concrete input rgba(10,20,30,0.5). -/
theorem C6_rgba_alpha_decimal_heuristic_witness :
    Color.parse (rgbaStrOf 10 20 30 (qs "0.5")) =
      QColor.mkRgb 10 20 30 (alphaHeuristic (qs "0.5")) :=
  C6_rgba_alpha_decimal_heuristic.1 10 20 30 (qs "0.5") (by decide)
    (by decide) (by decide)

/-- C1: merge(base, override) is field-by-field: every field set in the
override (per the §3 sentinels) takes the override's value, every unset
field keeps the base's value, and consequently merge(A,B) differs from
merge(B,A) whenever A and B both set the same field to different
values. -/
theorem C1_merge_fieldwise :
    ∀ (f : Field) (a b : StyleSheet),
      (fieldIsSet f b = true → fieldEqOn f (CSSParser.merge a b) b = true) ∧
      (fieldIsSet f b = false → fieldEqOn f (CSSParser.merge a b) a = true) ∧
      (fieldIsSet f a = true → fieldIsSet f b = true →
        fieldEqOn f a b = false →
        CSSParser.merge a b ≠ CSSParser.merge b a) := by
  intro f a b
  refine ⟨merge_fieldIsSet f a b, merge_fieldUnset f a b, ?_⟩
  intro ha hb hne heq
  have h1 : fieldEqOn f (CSSParser.merge a b) b = true := merge_fieldIsSet f a b hb
  have h2 : fieldEqOn f (CSSParser.merge b a) a = true := merge_fieldIsSet f b a ha
  rw [heq] at h1
  rw [fieldEqOn_congr_left f (CSSParser.merge b a) a b h2] at h1
  rw [h1] at hne
  simp at hne

/-- Witness for C1: an override that sets opacity wins, an unset field
keeps the base value, and two sheets setting opacity differently do not
merge commutatively. -/
theorem C1_merge_fieldwise_witness :
    (fieldEqOn Field.opacity
      (CSSParser.merge { opacity := 3/4 } { opacity := 1/2 })
      { opacity := 1/2 } = true) ∧
    (fieldEqOn Field.backgroundImage
      (CSSParser.merge { backgroundImage := qs "a.png" } { })
      { backgroundImage := qs "a.png" } = true) ∧
    CSSParser.merge ({ opacity := 3/4 } : StyleSheet) { opacity := 1/2 } ≠
      CSSParser.merge { opacity := 1/2 } { opacity := 3/4 } := by
  refine ⟨(C1_merge_fieldwise Field.opacity _ _).1
      (by simp [fieldIsSet]; norm_num),
    (C1_merge_fieldwise Field.backgroundImage
      { backgroundImage := qs "a.png" } { }).2.1 (by simp [fieldIsSet]),
    (C1_merge_fieldwise Field.opacity { opacity := 3/4 }
      { opacity := 1/2 }).2.2 (by simp [fieldIsSet]; norm_num)
      (by simp [fieldIsSet]; norm_num)
      (by simp [fieldEqOn]; norm_num)⟩

/-- C3 counterexample: a freshly constructed StyleSheet does not have
every field unset — fontSize defaults to 12, a positive (set) size. -/
theorem C3_fresh_all_unset_counterexample :
    ¬ (∀ f : Field, fieldIsSet f StyleSheet.fresh = false) := by
  intro h
  exact absurd (h Field.fontSize)
    (by simp [fieldIsSet, StyleSheet.fresh])

/-- C3 amended: a freshly constructed StyleSheet has every field unset
except fontSize, which defaults to 12 and therefore counts as set. -/
theorem C3_fresh_all_unset_amended :
    (∀ f : Field, f ≠ Field.fontSize →
      fieldIsSet f StyleSheet.fresh = false) ∧
    fieldIsSet Field.fontSize StyleSheet.fresh = true ∧
    StyleSheet.fresh.fontSize = 12 := by
  refine ⟨?_, by simp [fieldIsSet, StyleSheet.fresh], by rfl⟩
  intro f hf
  cases f <;>
    first
      | exact absurd rfl hf
      | simp [fieldIsSet, StyleSheet.fresh, QColor.isValid, Gradient.isValid]

/-- Witness for C3 amended at the opacity field. -/
theorem C3_fresh_all_unset_amended_witness :
    fieldIsSet Field.opacity StyleSheet.fresh = false :=
  C3_fresh_all_unset_amended.1 Field.opacity (by simp)

/-- C2: a second animate-request on the "fade" slot cancels the running
animation — its completion callback never fires, under any continuation
— while the replacement is registered immediately under the slot name
and, on natural completion, fires its own completion callback exactly
once, under any continuation. -/
theorem C2_fade_replacement (s : AnimState) (hwf : s.wf)
    (post post2 : List AnimEvent) :
    ((AnimState.run (Widget.fadeIn (Widget.fadeIn s)) post).fired.count
        s.nextId = 0) ∧
    ((Widget.fadeIn (Widget.fadeIn s)).anims.find?
        (fun p => p.1 = qs "fade") = some (qs "fade", s.nextId + 1)) ∧
    ((AnimState.run
        (Widget.animFinished (Widget.fadeIn (Widget.fadeIn s)) (qs "fade"))
        post2).fired.count (s.nextId + 1) = 1) := by
  obtain ⟨hwa, hwm⟩ := hwf
  have hanims2 : (Widget.fadeIn (Widget.fadeIn s)).anims =
      (qs "fade", s.nextId + 1) ::
        ((s.anims.filter (fun p => p.1 ≠ qs "fade")).filter
          (fun p => p.1 ≠ qs "fade")) := rfl
  have hnext2 : (Widget.fadeIn (Widget.fadeIn s)).nextId = s.nextId + 2 := rfl
  have hfired2 : (Widget.fadeIn (Widget.fadeIn s)).fired = s.fired := rfl
  have hcount0 : ∀ id, s.nextId ≤ id → s.fired.count id = 0 := by
    intro id hid
    exact List.count_eq_zero.mpr (fun hmem => absurd (hwm id hmem) (by omega))
  have hfind : (Widget.fadeIn (Widget.fadeIn s)).anims.find?
      (fun p => p.1 = qs "fade") = some (qs "fade", s.nextId + 1) := by
    rw [hanims2]
    exact List.find?_cons_of_pos _ (by simp)
  refine ⟨?_, hfind, ?_⟩
  · have hfrozen := run_count_frozen post (Widget.fadeIn (Widget.fadeIn s))
      s.nextId (by rw [hnext2]; omega)
      (by
        rw [hanims2]
        intro p hp
        rcases List.mem_cons.mp hp with rfl | hp
        · omega
        · have := hwa p
            (List.mem_of_mem_filter (List.mem_of_mem_filter hp))
          omega)
      (by
        rw [hanims2, hnext2]
        intro p hp
        rcases List.mem_cons.mp hp with rfl | hp
        · omega
        · have := hwa p
            (List.mem_of_mem_filter (List.mem_of_mem_filter hp))
          omega)
    rw [hfrozen, hfired2, hcount0 s.nextId (by omega)]
  · have hstep : Widget.animFinished (Widget.fadeIn (Widget.fadeIn s))
        (qs "fade") =
        { Widget.fadeIn (Widget.fadeIn s) with
            anims := (Widget.fadeIn (Widget.fadeIn s)).anims.filter
              (fun q => q.1 ≠ qs "fade")
            fired := (Widget.fadeIn (Widget.fadeIn s)).fired ++
              [s.nextId + 1] } := by
      unfold Widget.animFinished
      rw [hfind]
    have hmemtail : ∀ p, p ∈ (Widget.fadeIn (Widget.fadeIn s)).anims.filter
        (fun q => q.1 ≠ qs "fade") → p.2 < s.nextId := by
      intro p hp
      have hkey := List.of_mem_filter hp
      have hin := List.mem_of_mem_filter hp
      rw [hanims2] at hin
      rcases List.mem_cons.mp hin with rfl | hin
      · simp at hkey
      · exact hwa p (List.mem_of_mem_filter (List.mem_of_mem_filter hin))
    have hfrozen := run_count_frozen post2
      (Widget.animFinished (Widget.fadeIn (Widget.fadeIn s)) (qs "fade"))
      (s.nextId + 1)
      (by rw [hstep]; show s.nextId + 1 < s.nextId + 2; omega)
      (by
        rw [hstep]
        intro p hp
        have := hmemtail p hp
        omega)
      (by
        rw [hstep]
        intro p hp
        have := hmemtail p hp
        show p.2 < s.nextId + 2
        omega)
    rw [hfrozen, hstep]
    show (s.fired ++ [s.nextId + 1]).count (s.nextId + 1) = 1
    rw [List.count_append, hcount0 (s.nextId + 1) (by omega)]
    simp

/-- Witness for C2 from the empty animation state. -/
theorem C2_fade_replacement_witness :
    ((AnimState.run (Widget.fadeIn (Widget.fadeIn AnimState.init))
        [AnimEvent.finish (qs "fade")]).fired.count 0 = 0) ∧
    ((AnimState.run
        (Widget.animFinished (Widget.fadeIn (Widget.fadeIn AnimState.init))
          (qs "fade"))
        [AnimEvent.start (qs "fade")]).fired.count 1 = 1) := by
  have h := C2_fade_replacement AnimState.init
    (by constructor <;> simp [AnimState.init])
    [AnimEvent.finish (qs "fade")] [AnimEvent.start (qs "fade")]
  exact ⟨h.1, h.2.2⟩

/-- C9: Widget::setOpacity clamps its argument into [0,1] before
storing, so under every sequence of opacity-writing operations (direct
calls, style application, the markup opacity attribute) the stored
opacity stays in [0,1]; a fresh widget starts at opacity 1. -/
theorem C9_opacity_always_clamped :
    (∀ x : ℚ, 0 ≤ Widget.setOpacity x ∧ Widget.setOpacity x ≤ 1) ∧
    (∀ (st : ℚ) (ops : List OpacityOp), 0 ≤ st → st ≤ 1 →
      0 ≤ runOpacityOps st ops ∧ runOpacityOps st ops ≤ 1) ∧
    Widget.initOpacity = 1 := by
  have hset : ∀ x : ℚ, 0 ≤ Widget.setOpacity x ∧ Widget.setOpacity x ≤ 1 := by
    intro x
    unfold Widget.setOpacity qBound
    exact ⟨le_max_left 0 _, max_le (by norm_num) (min_le_left 1 x)⟩
  refine ⟨hset, ?_, rfl⟩
  intro st ops
  induction ops generalizing st with
  | nil => exact fun h0 h1 => ⟨h0, h1⟩
  | cons op rest ih =>
    intro h0 h1
    have hstep : 0 ≤ applyOpacityOp st op ∧ applyOpacityOp st op ≤ 1 := by
      cases op with
      | set x => exact hset x
      | style sheet =>
        show 0 ≤ Widget.setStyleOpacity st sheet ∧
          Widget.setStyleOpacity st sheet ≤ 1
        unfold Widget.setStyleOpacity
        split
        · exact hset _
        · exact ⟨h0, h1⟩
      | xmlAttr raw => exact hset _
    exact ih (applyOpacityOp st op) hstep.1 hstep.2

/-- Witness for C9: out-of-range writes (setOpacity(5), then the markup
attribute value "-3") leave the stored opacity inside [0,1]. -/
theorem C9_opacity_always_clamped_witness :
    0 ≤ runOpacityOps 1 [OpacityOp.set 5, OpacityOp.xmlAttr (qs "-3")] ∧
      runOpacityOps 1 [OpacityOp.set 5, OpacityOp.xmlAttr (qs "-3")] ≤ 1 :=
  C9_opacity_always_clamped.2.1 1 _ (by norm_num) (by norm_num)

/-- C4 counterexample: the well-formed document <foo/> has a root tag
that is neither widget nor widgets/milk, and parsing yields an empty
tree with NO diagnostic, contradicting the claimed diagnostic. -/
theorem C4_unknown_root_counterexample :
    setContent (qs "<foo/>") = .ok (.elem (qs "foo") []) ∧
    XMLParser.parseString (qs "<foo/>") = ([], []) := by
  constructor <;> rfl

/-- C4 amended: for every well-formed markup document whose root tag is
neither widget nor widgets/milk, parsing yields an empty widget tree
and no diagnostic (the unknown root is skipped silently). -/
theorem C4_unknown_root_amended :
    ∀ (xml : QStr) (root : XNode), setContent xml = .ok root →
      root.tag ≠ qs "widgets" → root.tag ≠ qs "milk" →
      root.tag ≠ qs "widget" →
      XMLParser.parseString xml = ([], []) := by
  intro xml root h h1 h2 h3
  unfold XMLParser.parseString
  rw [h]
  simp only []
  rw [if_neg (fun hor => hor.elim h1 h2), if_neg h3]

/-- Witness for C4 amended at the document <foo/>. -/
theorem C4_unknown_root_amended_witness :
    XMLParser.parseString (qs "<foo/>") = ([], []) :=
  C4_unknown_root_amended (qs "<foo/>") (.elem (qs "foo") []) rfl
    (by decide) (by decide) (by decide)

/-- C8: every structurally malformed markup document aborts the whole
parse with zero widgets and exactly one structural diagnostic whose
line and column are non-negative. -/
theorem C8_malformed_single_diagnostic :
    ∀ (xml : QStr) (e : ParseErr), setContent xml = .error e →
      XMLParser.parseString xml =
        ([], [⟨e.msg, (e.line : ℤ), (e.col : ℤ)⟩]) ∧
      0 ≤ (e.line : ℤ) ∧ 0 ≤ (e.col : ℤ) := by
  intro xml e h
  refine ⟨?_, Int.natCast_nonneg e.line, Int.natCast_nonneg e.col⟩
  unfold XMLParser.parseString
  rw [h]

/-- Witness for C8 at an unbalanced document. -/
theorem C8_malformed_single_diagnostic_witness :
    XMLParser.parseString (qs "<widget><text></widget>") =
      ([], [⟨"tag mismatch", (1 : ℤ), (23 : ℤ)⟩]) ∧
    (0 : ℤ) ≤ 1 ∧ (0 : ℤ) ≤ 23 :=
  C8_malformed_single_diagnostic (qs "<widget><text></widget>")
    ⟨"tag mismatch", 1, 23⟩ rfl

/-- C5 counterexample: with two colour-shaped tokens the LAST one, not
the first, determines the resulting colour, in both the border and the
shadow shorthand. -/
theorem C5_shorthand_first_color_counterexample :
    (CSSParser.parseBorder (qs "2px red blue")).color ≠
      Color.parse (qs "red") ∧
    (CSSParser.parseBorder (qs "2px red blue")).color =
      Color.parse (qs "blue") ∧
    (CSSParser.parseShadow (qs "1px 2px red blue")).color =
      Color.parse (qs "blue") := by
  refine ⟨by decide, by decide, by decide⟩

/-- C5 amended: border/shadow shorthand tokens are classified by shape
(width-shaped: ends in px or starts with a digit; border style
keywords; numeric-after-px-stripping for shadows; anything else is
colour-shaped), and the LAST colour-shaped token determines the
resulting colour (for shadows, only when that token is non-empty). -/
theorem C5_shorthand_last_color_wins :
    ∀ value : QStr,
      ((CSSParser.parseBorder value).color =
        (match (((splitSkipEmpty ' ' value).map trimL).filter
            borderColorShaped).getLast? with
         | some t => Color.parse t
         | none => ({} : Border).color)) ∧
      ((CSSParser.parseShadow value).color =
        (if ((((splitSkipEmpty ' ' value).map trimL).filter
            shadowColorShaped).getLast?).getD [] ≠ [] then
          Color.parse (((((splitSkipEmpty ' ' value).map trimL).filter
            shadowColorShaped).getLast?).getD [])
        else ({} : Shadow).color)) := by
  intro value
  constructor
  · exact foldl_borderStep_color (splitSkipEmpty ' ' value) {}
  · show (CSSParser.parseShadow value).color = _
    simp only [CSSParser.parseShadow]
    rw [foldl_shadowStep_snd (splitSkipEmpty ' ' value) ([], [])]
    simp only [apply_ite Shadow.color]
    simp [ite_self]

/-- C10 counterexample: the free parseColor helper and Color::parse
disagree — on rgba with fractional alpha the free helper reads the
alpha token with toInt (yielding 0), while Color::parse applies the
decimal-point heuristic (yielding 127). -/
theorem C10_two_parsers_counterexample :
    parseColor (qs "rgba(0,0,0,0.5)") ≠
      Color.parse (qs "rgba(0,0,0,0.5)") ∧
    parseColor (qs "rgba(0,0,0,0.5)") = QColor.rgb 0 0 0 0 ∧
    Color.parse (qs "rgba(0,0,0,0.5)") = QColor.rgb 0 0 0 127 := by
  refine ⟨by decide, by decide, by decide⟩

/-- C10 amended: the two colour parsers do not return equal colours for
every input (e.g. rgba with fractional alpha); they do agree on every
input that reaches the hex/named QColor(QString) fallback in both:
no rgb/rgba prefix on the raw string, and no rgb/rgba/hsl prefix and no
named-table hit on the trimmed lowercase string. -/
theorem C10_two_parsers_agree_on_fallback :
    ∀ str : QStr,
      startsWithL str (qs "rgb(") = false →
      startsWithL str (qs "rgba(") = false →
      startsWithL (lowerL (trimL str)) (qs "rgb(") = false →
      startsWithL (lowerL (trimL str)) (qs "rgba(") = false →
      startsWithL (lowerL (trimL str)) (qs "hsl(") = false →
      Color.namedBranch (lowerL (trimL str)) = none →
      parseColor str = Color.parse str := by
  intro str h1 h2 h3 h4 h5 h6
  have hrhs : Color.parse str = qcolorFromString str :=
    Color.parse_fallback str h3 h4 h5 h6
  have hlhs : parseColor str = qcolorFromString str := by
    unfold parseColor
    rw [h1, h2]
    simp
  rw [hlhs, hrhs]

/-- Witness for C10 at a hex literal handled by the shared fallback. -/
theorem C10_two_parsers_agree_on_fallback_witness :
    parseColor (qs "#abcdef") = Color.parse (qs "#abcdef") :=
  C10_two_parsers_agree_on_fallback (qs "#abcdef") (by decide) (by decide)
    (by decide) (by decide) (by decide) (by decide)

/-- C7 counterexample: the hsl round trip is NOT exact — hsl(120, 50%,
50%) parses to stored saturation/lightness 127, toHsl renders 49%, and
re-parsing yields 124: the channel values are not restored. -/
theorem C7_roundtrip_counterexample :
    Color.parse (Color.toHsl (Color.parse (qs "hsl(120, 50%, 50%)"))) ≠
      Color.parse (qs "hsl(120, 50%, 50%)") ∧
    Color.parse (qs "hsl(120, 50%, 50%)") = QColor.hsl 120 127 127 255 ∧
    Color.toHsl (Color.parse (qs "hsl(120, 50%, 50%)")) =
      qs "hsl(120, 49%, 49%)" := by
  refine ⟨by decide, by decide, by decide⟩

/-- C7 amended: parse followed by the matching formatter round-trips the
numeric channel values exactly for rgb, rgba, hex (opaque colours) and
the non-transparent named colours; the hsl round trip is inexact
(integer percent scaling), and toHex drops the alpha of transparent. -/
theorem C7_matching_formatter_roundtrip :
    (∀ r g b : ℕ, r ≤ 255 → g ≤ 255 → b ≤ 255 →
      Color.parse (Color.toRgb (QColor.rgb r g b 255)) =
        QColor.rgb r g b 255) ∧
    (∀ r g b a : ℕ, r ≤ 255 → g ≤ 255 → b ≤ 255 → a ≤ 255 →
      Color.parse (Color.toRgba (QColor.rgb r g b a)) =
        QColor.rgb r g b a) ∧
    (∀ r g b : ℕ, r ≤ 255 → g ≤ 255 → b ≤ 255 →
      Color.parse (Color.toHex (QColor.rgb r g b 255) false) =
        QColor.rgb r g b 255) ∧
    (∀ name ∈ [qs "white", qs "black", qs "red", qs "green", qs "blue",
        qs "yellow", qs "cyan", qs "magenta", qs "orange", qs "purple",
        qs "pink", qs "gray", qs "grey"],
      Color.parse (Color.toHex (Color.parse name) false) =
        Color.parse name) := by
  refine ⟨rgb_roundtrip, rgba_roundtrip, hex_roundtrip, by decide⟩

/-- Witness for C7 at concrete channels and a named colour. -/
theorem C7_matching_formatter_roundtrip_witness :
    Color.parse (Color.toRgb (QColor.rgb 12 34 56 255)) =
      QColor.rgb 12 34 56 255 ∧
    Color.parse (Color.toRgba (QColor.rgb 12 34 56 78)) =
      QColor.rgb 12 34 56 78 ∧
    Color.parse (Color.toHex (QColor.rgb 171 205 239 255) false) =
      QColor.rgb 171 205 239 255 ∧
    Color.parse (Color.toHex (Color.parse (qs "red")) false) =
      Color.parse (qs "red") :=
  ⟨C7_matching_formatter_roundtrip.1 12 34 56 (by decide) (by decide)
      (by decide),
    C7_matching_formatter_roundtrip.2.1 12 34 56 78 (by decide) (by decide)
      (by decide) (by decide),
    C7_matching_formatter_roundtrip.2.2.1 171 205 239 (by decide) (by decide)
      (by decide),
    C7_matching_formatter_roundtrip.2.2.2 (qs "red") (by decide)⟩
